import Mathlib

/-
Verification of the joseTOV EOS construction pipeline (src/joseTOV/eos.py).

The source file eos.py is embedded shallowly over the reals:
* jax arrays become List ℝ,
* jnp.interp becomes the piecewise-linear `interp` below (clamping outside
  the knot range, as numpy does),
* jax.jacfwd of an elementwise map becomes the derivative `deriv` of the
  underlying scalar function,
* floating point becomes exact real arithmetic.

The modules joseTOV.utils and joseTOV.tov are not under src/.  Their members
(unit constants, cumtrapz, cubic_root_for_proton_fraction, interp_in_logspace,
limit_by_MTOV, cubic_spline and the TOV solver itself) are modelled from the
spec; each such definition carries a doc comment saying so.
-/

set_option maxHeartbeats 1000000

noncomputable section

open List

/-- Modelled from the spec: utils.hbarc (not under src/), the constant ħc in
MeV·fm used by the beta-equilibrium cubic. -/
def hbarc : ℝ := 197.327

/-- Modelled from the spec: utils.m_n (not under src/), the neutron mass in MeV. -/
def m_n : ℝ := 939.565

/-- Modelled from the spec: utils.m_p (not under src/), the proton mass in MeV. -/
def m_p : ℝ := 938.272

/-- Modelled from the spec: utils.fm_inv3_to_geometric (not under src/), the
fixed positive conversion factor from fm^-3 to geometric units.  The spec fixes
no numeric value, so a representative exact rational is used. -/
def fm_inv3_to_geometric : ℝ := 1 / 1000000

/-- Modelled from the spec: utils.MeV_fm_inv3_to_geometric (not under src/), the
fixed positive conversion factor from MeV·fm^-3 to geometric units. -/
def MeV_fm_inv3_to_geometric : ℝ := 1 / 10000

/-- Modelled from the spec: utils.solar_mass_in_meter (not under src/), one solar
mass in meters. -/
def solar_mass_in_meter : ℝ := 1476.625

/-- Successive differences, as jnp.diff: one entry shorter than the input. -/
def diffL (xs : List ℝ) : List ℝ := List.zipWith (fun a b => b - a) xs xs.tail

/-- jnp.clip with scalar bounds: first the lower bound, then the upper bound. -/
def clip (x lo hi : ℝ) : ℝ := min (max x lo) hi

/-- jnp.concatenate of an array's first element with the array itself, used in
eos.py to repeat the first entry of a finite-difference array; the out-of-range
read on an empty array is modelled as 0. -/
def prependHead (xs : List ℝ) : List ℝ := xs.headD 0 :: xs

/-- One-dimensional piecewise-linear interpolation on an increasing knot vector,
as jnp.interp: constant clamping outside the knot range, linear interpolation
between adjacent knots inside it.  Mismatched knot/value lists yield 0. -/
def interp (x : ℝ) : List ℝ → List ℝ → ℝ
  | x0 :: x1 :: xt, y0 :: y1 :: yt =>
      if x ≤ x0 then y0
      else if x ≤ x1 then y0 + (x - x0) * (y1 - y0) / (x1 - x0)
      else interp x (x1 :: xt) (y1 :: yt)
  | [_], [y0] => y0
  | _, _ => 0

/-- Horner evaluation with the highest-degree coefficient first, as jnp.polyval. -/
def polyval (coeffs : List ℝ) (x : ℝ) : ℝ := coeffs.foldl (fun acc c => acc * x + c) 0

/-- Base-10 logarithm, as jnp.log10. -/
def log10 (x : ℝ) : ℝ := Real.logb 10 x

/-- jnp.logspace: num points 10^(a + (b-a)·i/(num-1)); for num = 1 the single
point 10^a, matching numpy (our real division by zero is zero). -/
def logspace (a b : ℝ) (num : ℕ) : List ℝ :=
  (List.range num).map fun i : ℕ => (10 : ℝ) ^ (a + (b - a) * (i : ℝ) / ((num : ℝ) - 1))

/-- jnp.linspace: num points a + (b-a)·i/(num-1). -/
def linspace (a b : ℝ) (num : ℕ) : List ℝ :=
  (List.range num).map fun i : ℕ => a + (b - a) * (i : ℝ) / ((num : ℝ) - 1)

/-- Helper for `cumtrapz`: accumulate trapezoid areas over (value, abscissa)
pairs, emitting the running integral at every point. -/
def cumtrapzAux (acc : ℝ) : List (ℝ × ℝ) → List ℝ
  | [] => []
  | [_] => [acc]
  | (y0, x0) :: (y1, x1) :: rest =>
      acc :: cumtrapzAux (acc + (y0 + y1) / 2 * (x1 - x0)) ((y1, x1) :: rest)

/-- Modelled from the spec: utils.cumtrapz (not under src/), cumulative
trapezoidal integration of ys against xs; first entry 0, same length as the
input. -/
def cumtrapz (ys xs : List ℝ) : List ℝ := cumtrapzAux 0 (List.zip ys xs)

/-- Modelled from the spec: utils.interp_in_logspace (not under src/), log-log
interpolation: interpolate the logarithms and exponentiate the result. -/
def interp_in_logspace (x : ℝ) (xs ys : List ℝ) : ℝ :=
  Real.exp (interp (Real.log x) (xs.map Real.log) (ys.map Real.log))

/-- Modelled from the spec: the scan inside utils.limit_by_MTOV (not under
src/): the length of the longest strictly increasing prefix of the mass
sequence, i.e. everything before the first index where mass stops increasing. -/
def mtovCut : List ℝ → ℕ
  | [] => 0
  | [_] => 1
  | a :: b :: rest => if a < b then 1 + mtovCut (b :: rest) else 1

/-- Modelled from the spec: utils.limit_by_MTOV (not under src/): discard all
entries from the first index where mass stops increasing onward. -/
def limit_by_MTOV (ms rs ls : List ℝ) : List ℝ × List ℝ × List ℝ :=
  (ms.take (mtovCut ms), rs.take (mtovCut ms), ls.take (mtovCut ms))

/-- Data of Interpolate_EOS_model (src/joseTOV/eos.py, lines 42-85): the stored,
unit-converted table arrays and the derived log-space and pseudo-enthalpy
tables. -/
structure InterpolateEOS where
  n : List ℝ
  p : List ℝ
  e : List ℝ
  logn : List ℝ
  logp : List ℝ
  loge : List ℝ
  h : List ℝ
  logh : List ℝ
  dloge_dlogp : List ℝ

/-- Embedding of Interpolate_EOS_model.__init__: convert the inputs to
geometric units, take logs, accumulate the pseudo-enthalpy by trapezoidal
integration of p/(e+p) against log p, and form dloge/dlogp by forward
differences with the first element repeated. -/
def mkInterpolateEOS (n p e : List ℝ) : InterpolateEOS :=
  let n' := n.map (· * fm_inv3_to_geometric)
  let p' := p.map (· * MeV_fm_inv3_to_geometric)
  let e' := e.map (· * MeV_fm_inv3_to_geometric)
  let logp := p'.map Real.log
  let h := cumtrapz (List.zipWith (fun pi ei => pi / (ei + pi)) p' e') logp
  let loge := e'.map Real.log
  ⟨n', p', e', n'.map Real.log, logp, loge, h, h.map Real.log,
    prependHead (List.zipWith (fun a b => a / b) (diffL loge) (diffL logp))⟩

/-- Embedding of Interpolate_EOS_model.energy_density_from_pseudo_enthalpy. -/
def energy_density_from_pseudo_enthalpy (m : InterpolateEOS) (h : ℝ) : ℝ :=
  Real.exp (interp (Real.log h) m.logh m.loge)

/-- Embedding of Interpolate_EOS_model.pressure_from_pseudo_enthalpy. -/
def pressure_from_pseudo_enthalpy (m : InterpolateEOS) (h : ℝ) : ℝ :=
  Real.exp (interp (Real.log h) m.logh m.logp)

/-- Embedding of Interpolate_EOS_model.dloge_dlogp_from_pseudo_enthalpy: plain
linear interpolation, no logs. -/
def dloge_dlogp_from_pseudo_enthalpy (m : InterpolateEOS) (h : ℝ) : ℝ :=
  interp h m.h m.dloge_dlogp

/-- Embedding of Interpolate_EOS_model.pseudo_enthalpy_from_pressure. -/
def pseudo_enthalpy_from_pressure (m : InterpolateEOS) (p : ℝ) : ℝ :=
  Real.exp (interp (Real.log p) m.logp m.logh)

/-- Embedding of Interpolate_EOS_model.pressure_from_number_density: note the
independent variable is the number density itself, not its logarithm. -/
def pressure_from_number_density (m : InterpolateEOS) (n : ℝ) : ℝ :=
  Real.exp (interp n m.n m.logp)

/-- Data of MetaModel_EOS_model: the normalized expansion coefficients, the
proton-fraction configuration, the assembled interpolation table and the
derived speed-of-sound table.  The closed-form cubic solver
utils.cubic_root_for_proton_fraction is not under src/ and is modelled from the
spec as the stored rootfinder field, a function returning the three roots of
the cubic with the given coefficients. -/
structure MetaModel where
  nsat : ℝ
  coefficient_sat : List ℝ
  coefficient_sym : List ℝ
  fix_proton_fraction : Bool
  fix_proton_fraction_val : ℝ
  max_n_crust : ℝ
  rootfinder : ℝ × ℝ × ℝ × ℝ → List ℂ
  eos : InterpolateEOS
  cs2 : List ℝ

/-- Embedding of MetaModel_EOS_model.esym. -/
def MetaModel.esym (m : MetaModel) (n : ℝ) : ℝ :=
  polyval m.coefficient_sym.reverse ((n - m.nsat) / (3 * m.nsat))

/-- Embedding of MetaModel_EOS_model.esat. -/
def MetaModel.esat (m : MetaModel) (n : ℝ) : ℝ :=
  polyval m.coefficient_sat.reverse ((n - m.nsat) / (3 * m.nsat))

/-- Embedding of MetaModel_EOS_model.compute_proton_fraction at one density:
build the cubic coefficients, obtain the three roots, zero every root that is
not real-valued with real part in [0, 1], sum what remains and cube it. -/
def compute_proton_fraction_scalar (m : MetaModel) (n : ℝ) : ℝ :=
  let E := m.esym n
  let a := 8 * E
  let b := (0 : ℝ)
  let c := hbarc * (3 * Real.pi ^ 2 * n) ^ ((1 : ℝ) / 3)
  let d := -4 * E - (m_n - m_p)
  let ys := m.rootfinder (a, b, c, d)
  let physical_ys := (ys.map fun y => if y.im = 0 ∧ 0 ≤ y.re ∧ y.re ≤ 1 then y.re else 0).sum
  physical_ys ^ 3

/-- Embedding of MetaModel_EOS_model.compute_proton_fraction on a density
array (the source solves the cubic independently at every density). -/
def compute_proton_fraction (m : MetaModel) (ns : List ℝ) : List ℝ :=
  ns.map (compute_proton_fraction_scalar m)

/-- Embedding of MetaModel_EOS_model.proton_fraction at one density: the
jax.lax.cond dispatch between the fixed value and the computed fraction. -/
def proton_fraction_scalar (m : MetaModel) (n : ℝ) : ℝ :=
  if m.fix_proton_fraction then m.fix_proton_fraction_val
  else compute_proton_fraction_scalar m n

/-- Embedding of MetaModel_EOS_model.energy_per_particle_nuclear_unit at one
density. -/
def energy_per_particle_scalar (m : MetaModel) (n : ℝ) : ℝ :=
  let x := proton_fraction_scalar m n
  m.esat n + m.esym n * (1 - 2 * x) ^ 2 + (x * m_p + (1 - x) * m_n)

/-- Embedding of MetaModel_EOS_model.energy_density_from_number_density_nuclear_unit
at one density. -/
def energy_density_scalar (m : MetaModel) (n : ℝ) : ℝ := n * energy_per_particle_scalar m n

/-- Embedding of MetaModel_EOS_model.pressure_from_number_density_nuclear_unit
at one density: p = n² d(energy per particle)/dn; the diagonal of jax.jacfwd of
the elementwise map is the derivative of the scalar function. -/
def pressure_scalar (m : MetaModel) (n : ℝ) : ℝ :=
  n ^ 2 * deriv (energy_per_particle_scalar m) n

/-- Array version of the pressure, as the source method. -/
def pressure_from_number_density_nuclear_unit (m : MetaModel) (ns : List ℝ) : List ℝ :=
  ns.map (pressure_scalar m)

/-- Array version of the energy density, as the source method. -/
def energy_density_from_number_density_nuclear_unit (m : MetaModel) (ns : List ℝ) : List ℝ :=
  ns.map (energy_density_scalar m)

/-- Embedding of MetaModel_EOS_model.cs2_from_number_density_nuclear_unit:
finite differences of pressure over energy density, clipped to
[cs2_min, 1.0], with the first entry repeated to preserve length. -/
def cs2_from_number_density_nuclear_unit (m : MetaModel) (ns : List ℝ) (cs2_min : ℝ) : List ℝ :=
  let p := pressure_from_number_density_nuclear_unit m ns
  let e := energy_density_from_number_density_nuclear_unit m ns
  let cs2 := List.zipWith (fun a b => a / b) (diffL p) (diffL e)
  prependHead (cs2.map fun v => clip v cs2_min 1)

/-- Constructor arguments of MetaModel_EOS_model.__init__.  The crust table is
the externally supplied (n, p, e) data (crust loading is file I/O, an external
collaborator per the spec), and cubicSpline models utils.cubic_spline (not
under src/; the spec gives no formula for it, so it stays an unspecified
interpolation routine). -/
structure MetaModelArgs where
  rootfinder : ℝ × ℝ × ℝ × ℝ → List ℂ
  cubicSpline : List ℝ → List ℝ → List ℝ → List ℝ
  crust_n : List ℝ
  crust_p : List ℝ
  crust_e : List ℝ
  coefficient_sat : List ℝ
  coefficient_sym : List ℝ
  nsat : ℝ
  nmin : ℝ
  nmax : ℝ
  ndat : ℕ
  fix_proton_fraction : Bool
  fix_proton_fraction_val : ℝ
  max_n_crust : ℝ
  use_empty_crust : Bool
  use_spline : Bool
  ndat_spline : ℕ

/-- Per-order division by the factorial of the index, as
coefficient / factorial(arange(len(coefficient))) in the source. -/
def normalizeCoeffs (cs : List ℝ) : List ℝ :=
  List.zipWith (fun i c => c / (Nat.factorial i : ℝ)) (List.range cs.length) cs

/-- Crust rows kept by the source: the (n, p, e) triples with n ≤ max_n_crust,
or nothing when use_empty_crust is set. -/
def crustTriples (a : MetaModelArgs) : List (ℝ × ℝ × ℝ) :=
  let crust0 : List (ℝ × ℝ × ℝ) :=
    if a.use_empty_crust then []
    else (a.crust_n.zip (a.crust_p.zip a.crust_e)).map fun t => (t.1, t.2.1, t.2.2)
  crust0.filter fun t => t.1 ≤ a.max_n_crust

/-- Number densities of the retained crust rows. -/
def crust_ns (a : MetaModelArgs) : List ℝ := (crustTriples a).map fun t => t.1

/-- Pressures of the retained crust rows. -/
def crust_ps (a : MetaModelArgs) : List ℝ := (crustTriples a).map fun t => t.2.1

/-- Energy densities of the retained crust rows. -/
def crust_es (a : MetaModelArgs) : List ℝ := (crustTriples a).map fun t => t.2.2

/-- The source adjustment nmin = max(nmin, ns_crust[-1] + 1e-3) that starts the
metamodel grid above the crust. -/
def adjustedNmin (a : MetaModelArgs) : ℝ := max a.nmin ((crust_ns a).getLastD 0 + 1 / 1000)

/-- The partially initialized model whose attributes the source methods read
while __init__ assembles the table (the eos and cs2 attributes are set last and
are not consulted by those methods). -/
def coreModel (a : MetaModelArgs) : MetaModel :=
  { nsat := a.nsat,
    coefficient_sat := normalizeCoeffs
      (a.coefficient_sat.take 1 ++ [0] ++ a.coefficient_sat.drop 1),
    coefficient_sym := normalizeCoeffs a.coefficient_sym,
    fix_proton_fraction := a.fix_proton_fraction,
    fix_proton_fraction_val := a.fix_proton_fraction_val,
    max_n_crust := a.max_n_crust,
    rootfinder := a.rootfinder,
    eos := ⟨[], [], [], [], [], [], [], [], []⟩,
    cs2 := [] }

/-- Metamodel grid points surviving the stitching mask: log-spaced densities
from the adjusted nmin to nmax whose pressure and energy density exceed the
last crust values. -/
def mmTriples (a : MetaModelArgs) : List (ℝ × ℝ × ℝ) :=
  ((logspace (log10 (adjustedNmin a)) (log10 a.nmax) a.ndat).map fun n =>
    (n, pressure_scalar (coreModel a) n, energy_density_scalar (coreModel a) n)).filter
    fun t => (crust_ps a).getLastD 0 < t.2.1 ∧ (crust_es a).getLastD 0 < t.2.2

/-- The assembled (n, p, e) table of MetaModel_EOS_model.__init__ in nuclear
units: crust rows, optionally a spline bridge, then the surviving metamodel
rows. -/
def metaModelTable (a : MetaModelArgs) : List ℝ × List ℝ × List ℝ :=
  let ns_mm := (mmTriples a).map fun t => t.1
  let ps_mm := (mmTriples a).map fun t => t.2.1
  let es_mm := (mmTriples a).map fun t => t.2.2
  let ns_tmp := crust_ns a ++ ns_mm
  let ps_tmp := crust_ps a ++ ps_mm
  let es_tmp := crust_es a ++ es_mm
  if a.use_spline then
    let ns_spline := linspace a.max_n_crust (adjustedNmin a) a.ndat_spline
    (crust_ns a ++ ns_spline ++ ns_mm,
     crust_ps a ++ a.cubicSpline ns_spline ns_tmp ps_tmp ++ ps_mm,
     crust_es a ++ a.cubicSpline ns_spline ns_tmp es_tmp ++ es_mm)
  else (ns_tmp, ps_tmp, es_tmp)

/-- Embedding of MetaModel_EOS_model.__init__: assemble the table, hand it to
the Interpolate_EOS_model base constructor, and retain the speed-of-sound
table evaluated on the unconverted densities with the default cs2_min. -/
def mkMetaModel (a : MetaModelArgs) : MetaModel :=
  let t := metaModelTable a
  { coreModel a with
    eos := mkInterpolateEOS t.1 t.2.1 t.2.2,
    cs2 := cs2_from_number_density_nuclear_unit (coreModel a) t.1 (1 / 1000) }

/-- Data of MetaModel_with_CSE_EOS_model: the inner metamodel, the break-point
quantities, the extended speed-of-sound grids (break point prepended) and the
final interpolation table. -/
structure CSEModel where
  metamodel : MetaModel
  nbreak : ℝ
  p_break : ℝ
  e_break : ℝ
  mu_break : ℝ
  cs2_break : ℝ
  ngrids : List ℝ
  cs2grids : List ℝ
  eos : InterpolateEOS

/-- The piecewise-linear speed-of-sound function of the CSE extension
(self.cs2_function in the source). -/
def CSEModel.cs2_fn (c : CSEModel) (n : ℝ) : ℝ := interp n c.ngrids c.cs2grids

/-- Embedding of the body of MetaModel_with_CSE_EOS_model.__init__ after the
grid-length assertion: build the metamodel up to nbreak, compute the break
point, integrate the causal relations on a log-spaced grid by cumulative
trapezoids, and concatenate the metamodel table (converted back to nuclear
units) with the extension. -/
def buildCSE (a : MetaModelArgs) (nbreak : ℝ) (ngrids cs2grids : List ℝ)
    (nmax : ℝ) (ndat_CSE : ℕ) : CSEModel :=
  let mm := mkMetaModel { a with nmax := nbreak }
  let p_break := (pressure_from_number_density_nuclear_unit mm [nbreak]).headD 0
  let e_break := (energy_density_from_number_density_nuclear_unit mm [nbreak]).headD 0
  let mu_break := (p_break + e_break) / nbreak
  let cs2_break := (diffL mm.eos.p).getLastD 0 / (diffL mm.eos.e).getLastD 0
  let ngrids' := nbreak :: ngrids
  let cs2grids' := cs2_break :: cs2grids
  let cs2f := fun n => interp n ngrids' cs2grids'
  let ns := logspace (log10 nbreak) (log10 nmax) ndat_CSE
  let mus := (cumtrapz (List.zipWith (fun c n => c / n) (ns.map cs2f) ns) ns).map
    fun t => mu_break * Real.exp t
  let ps := (cumtrapz (List.zipWith (fun c mu => c * mu) (ns.map cs2f) mus) ns).map
    fun t => p_break + t
  let es := (cumtrapz mus ns).map fun t => e_break + t
  let ns_full := mm.eos.n.map (fun v => v / fm_inv3_to_geometric) ++ ns
  let ps_full := mm.eos.p.map (fun v => v / MeV_fm_inv3_to_geometric) ++ ps
  let es_full := mm.eos.e.map (fun v => v / MeV_fm_inv3_to_geometric) ++ es
  { metamodel := mm, nbreak := nbreak, p_break := p_break, e_break := e_break,
    mu_break := mu_break, cs2_break := cs2_break, ngrids := ngrids',
    cs2grids := cs2grids', eos := mkInterpolateEOS ns_full ps_full es_full }

/-- Embedding of MetaModel_with_CSE_EOS_model.__init__ including the assertion
that ngrids and cs2grids have the same length: mismatched lengths fail, equal
lengths produce the model. -/
def mkCSE (a : MetaModelArgs) (nbreak : ℝ) (ngrids cs2grids : List ℝ)
    (nmax : ℝ) (ndat_CSE : ℕ) : Except String CSEModel :=
  if ngrids.length = cs2grids.length then
    Except.ok (buildCSE a nbreak ngrids cs2grids nmax ndat_CSE)
  else Except.error "ngrids and cs2grids must have the same length."

/-- Embedding of MetaModel_with_CSE_EOS_model.cs2_from_number_density_nuclear_unit:
below nbreak the metamodel finite-difference table (computed at the default
cs2_min of 1e-3), above it the extension curve; then clip to [cs2_min, 1.0]. -/
def cse_cs2_from_number_density_nuclear_unit (c : CSEModel) (ns : List ℝ) (cs2_min : ℝ) :
    List ℝ :=
  List.zipWith (fun n v => clip (if n < c.nbreak then v else c.cs2_fn n) cs2_min 1)
    ns (cs2_from_number_density_nuclear_unit c.metamodel ns (1 / 1000))

/-- Embedding of construct_family (src/joseTOV/eos.py, lines 453-506).  The TOV
solver lives in joseTOV.tov, an external collaborator per the spec, and is
passed as a function returning (mass, radius, k2) in geometric units;
utils.interp_in_logspace and utils.limit_by_MTOV are modelled from the spec. -/
def construct_family
    (solver : List ℝ × List ℝ × List ℝ × List ℝ → ℝ → ℝ × ℝ × ℝ)
    (eos : List ℝ × List ℝ × List ℝ × List ℝ × List ℝ)
    (ndat : ℕ) (min_nsat : ℝ) : List ℝ × List ℝ × List ℝ × List ℝ :=
  let ns := eos.1
  let ps := eos.2.1
  let hs := eos.2.2.1
  let es := eos.2.2.2.1
  let dloge_dlogps := eos.2.2.2.2
  let eos_dict := (ps, hs, es, dloge_dlogps)
  let pc_min := interp_in_logspace (min_nsat * 0.16 * fm_inv3_to_geometric) ns ps
  let pc_max := ps.getLastD 0
  let pcs := logspace (log10 pc_min) (log10 pc_max) ndat
  let results := pcs.map (solver eos_dict)
  let ms := results.map fun t => t.1
  let rs := results.map fun t => t.2.1
  let ks := results.map fun t => t.2.2
  let cs := List.zipWith (fun mv rv => mv / rv) ms rs
  let ms' := ms.map fun mv => mv / solar_mass_in_meter
  let rs' := rs.map fun rv => rv / 1000
  let lambdas := List.zipWith (fun k c => 2 / 3 * k * c ^ (-5 : ℤ)) ks cs
  let t := limit_by_MTOV ms' rs' lambdas
  (pcs.map Real.log, t.1, t.2.1, t.2.2)

/-- Spec formulation of a log-log interpolation query (spec section 4.1):
interpolate the logarithm of the dependent variable against the logarithm of
the independent variable, then exponentiate. -/
def specLogLogQuery (x : ℝ) (xs ys : List ℝ) : ℝ :=
  Real.exp (interp (Real.log x) (xs.map Real.log) (ys.map Real.log))

/-- Semi-log interpolation: the logarithm of the dependent variable
interpolated against the unlogged independent variable, then exponentiated. -/
def specSemiLogQuery (x : ℝ) (xs ys : List ℝ) : ℝ :=
  Real.exp (interp x xs (ys.map Real.log))

/-- Closed-form cumulative trapezoid sum, directly transcribing the spec's
description of the CSE integrals. -/
def trapSum (ys xs : List ℝ) (k : ℕ) : ℝ :=
  ∑ j ∈ Finset.range k, (ys.getD j 0 + ys.getD (j + 1) 0) / 2 * (xs.getD (j + 1) 0 - xs.getD j 0)

/-- Spec formulation of the CSE chemical potential at grid index k:
mu(n) = mu_break · exp(∫ cs2(n')/n' dn') by cumulative trapezoids. -/
def specCSEmu (mu_break : ℝ) (cs2f : ℝ → ℝ) (ns : List ℝ) (k : ℕ) : ℝ :=
  mu_break * Real.exp (trapSum (ns.map fun x => cs2f x / x) ns k)

/-- Spec formulation of the CSE pressure at grid index k:
p(n) = p_break + ∫ cs2(n')·mu(n') dn' by cumulative trapezoids. -/
def specCSEp (p_break mu_break : ℝ) (cs2f : ℝ → ℝ) (ns : List ℝ) (k : ℕ) : ℝ :=
  p_break + trapSum (List.zipWith (fun c mu => c * mu) (ns.map cs2f)
    ((List.range ns.length).map fun j => specCSEmu mu_break cs2f ns j)) ns k

/-- Spec formulation of the CSE energy density at grid index k:
e(n) = e_break + ∫ mu(n') dn' by cumulative trapezoids. -/
def specCSEe (e_break mu_break : ℝ) (cs2f : ℝ → ℝ) (ns : List ℝ) (k : ℕ) : ℝ :=
  e_break + trapSum ((List.range ns.length).map fun j => specCSEmu mu_break cs2f ns j) ns k

/-- The mass column of the pre-truncation stellar sequence assembled by
construct_family: solver masses on the central-pressure grid, converted to
solar masses.  This names the intermediate of construct_family so the
truncation theorems can refer to it. -/
def familyPcs (eos : List ℝ × List ℝ × List ℝ × List ℝ × List ℝ)
    (ndat : ℕ) (min_nsat : ℝ) : List ℝ :=
  logspace
    (log10 (interp_in_logspace (min_nsat * 0.16 * fm_inv3_to_geometric) eos.1 eos.2.1))
    (log10 (eos.2.1.getLastD 0)) ndat

/-- Pre-truncation mass sequence of construct_family in solar masses. -/
def familyMassGrid (solver : List ℝ × List ℝ × List ℝ × List ℝ → ℝ → ℝ × ℝ × ℝ)
    (eos : List ℝ × List ℝ × List ℝ × List ℝ × List ℝ) (ndat : ℕ) (min_nsat : ℝ) : List ℝ :=
  (familyPcs eos ndat min_nsat).map fun pc =>
    (solver (eos.2.1, eos.2.2.1, eos.2.2.2.1, eos.2.2.2.2) pc).1 / solar_mass_in_meter

/-- A concrete constructor-argument record used by the concrete instances in
the theorems below: the two-point crust of the spec's concrete scenario, the
saturation coefficients [-16, 230] and symmetry coefficient [32], saturation
density 0.16, fixed proton fraction, no spline. -/
def argsA : MetaModelArgs :=
  { rootfinder := fun _ => [],
    cubicSpline := fun _ _ _ => [],
    crust_n := [0.01, 0.02], crust_p := [1, 3], crust_e := [10, 12],
    coefficient_sat := [-16, 230], coefficient_sym := [32],
    nsat := 0.16, nmin := 0.1, nmax := 0.32, ndat := 2,
    fix_proton_fraction := true, fix_proton_fraction_val := 0.02,
    max_n_crust := 0.08, use_empty_crust := false, use_spline := false,
    ndat_spline := 50 }

/-- A concrete model whose symmetry energy makes y = 1/2 an exact root of the
beta-equilibrium cubic at density 1/(3π²); its rootfinder reports that root
together with two non-qualifying values. -/
def pfModelA : MetaModel :=
  { nsat := 0.16, coefficient_sat := [],
    coefficient_sym := [(hbarc / 2 - (m_n - m_p)) / 3],
    fix_proton_fraction := false, fix_proton_fraction_val := 0,
    max_n_crust := 0.08,
    rootfinder := fun _ => [((1 / 2 : ℝ) : ℂ), ((2 : ℝ) : ℂ), Complex.I],
    eos := ⟨[], [], [], [], [], [], [], [], []⟩, cs2 := [] }

/-- A concrete model whose rootfinder reports no qualifying root at all. -/
def pfModelB : MetaModel :=
  { pfModelA with rootfinder := fun _ => [Complex.I, ((2 : ℝ) : ℂ), ((-1 : ℝ) : ℂ)] }

/-- A small concrete coherent table instance used by the clamping witness. -/
def tableA : InterpolateEOS :=
  ⟨[1, 2], [1, 2], [1, 2], [1, 2].map Real.log, [1, 2].map Real.log,
    [1, 2].map Real.log, [1, 2], [1, 2].map Real.log, [1, 1]⟩

-- End of definitions; general lemmas and claim theorems follow.

/-- Knot-evaluation property of piecewise-linear interpolation: on a strictly
increasing knot vector, interpolating at the i-th knot returns the i-th value. -/
theorem interp_getD (xs ys : List ℝ) (i : ℕ) (hc : List.Chain' (· < ·) xs)
    (hi : i < xs.length) (hlen : xs.length = ys.length) :
    interp (xs.getD i 0) xs ys = ys.getD i 0 := by
  induction xs generalizing ys i with
  | nil => simp at hi
  | cons x0 xt ih =>
    match xt, ys with
    | [], [y0] =>
      match i with
      | 0 => simp [interp]
      | (k + 1) => simp at hi
    | [], y0 :: y1 :: yt => simp at hlen
    | x1 :: xt', [] => simp at hlen
    | x1 :: xt', [y0] => simp at hlen
    | x1 :: xt', y0 :: y1 :: yt =>
      have h01 : x0 < x1 := hc.rel_head
      match i with
      | 0 => simp [interp]
      | 1 =>
        have hne : x1 - x0 ≠ 0 := by linarith
        simp only [List.getD_cons_succ, List.getD_cons_zero, interp]
        rw [if_neg (by push_neg; exact h01), if_pos (le_refl x1)]
        field_simp
      | (k + 2) =>
        have hmem : (x1 :: xt').getD (k + 1) 0 ∈ x1 :: xt' := by
          rw [List.getD_eq_getElem _ _ (by simpa using hi)]
          exact List.getElem_mem _
        have hgt1 : x1 < (x1 :: xt').getD (k + 1) 0 := by
          have hc' := List.chain'_iff_pairwise.mp hc.tail
          have hmem' : (xt').getD k 0 ∈ xt' := by
            rw [List.getD_eq_getElem _ _ (by simpa using hi)]
            exact List.getElem_mem _
          have h := List.rel_of_pairwise_cons hc' hmem'
          simpa using h
        have hgt0 : x0 < (x1 :: xt').getD (k + 1) 0 := lt_trans h01 hgt1
        have step : interp ((x0 :: x1 :: xt').getD (k + 2) 0) (x0 :: x1 :: xt') (y0 :: y1 :: yt)
            = interp ((x1 :: xt').getD (k + 1) 0) (x1 :: xt') (y1 :: yt) := by
          simp only [List.getD_cons_succ, interp]
          rw [if_neg (by push_neg; exact hgt0), if_neg (by push_neg; exact hgt1)]
        rw [step, ih (y1 :: yt) (k + 1) hc.tail (by simpa using hi) (by simpa using hlen)]
        simp

/-- Below-range clamping: a query at or below the first knot returns the first
value. -/
theorem interp_headD (xs ys : List ℝ) (x : ℝ) (hne : xs ≠ [])
    (hlen : xs.length = ys.length) (hx : x ≤ xs.headD 0) :
    interp x xs ys = ys.headD 0 := by
  match xs, ys with
  | [x0], [y0] => simp [interp]
  | [x0], y0 :: y1 :: yt => simp at hlen
  | x0 :: x1 :: xt, [] => simp at hlen
  | x0 :: x1 :: xt, [y0] => simp at hlen
  | x0 :: x1 :: xt, y0 :: y1 :: yt =>
    simp only [List.headD] at hx ⊢
    simp only [interp]
    rw [if_pos (by simpa using hx)]

/-- Above-range clamping: a query strictly above every knot returns the last
value. -/
theorem interp_getLastD (xs ys : List ℝ) (x : ℝ) (hne : xs ≠ [])
    (hlen : xs.length = ys.length) (hx : ∀ z ∈ xs, z < x) :
    interp x xs ys = ys.getLastD 0 := by
  induction xs generalizing ys with
  | nil => simp at hne
  | cons x0 xt ih =>
    match xt, ys with
    | [], [y0] => simp [interp]
    | [], y0 :: y1 :: yt => simp at hlen
    | x1 :: xt', [] => simp at hlen
    | x1 :: xt', [y0] => simp at hlen
    | x1 :: xt', y0 :: y1 :: yt =>
      have h0 : x0 < x := hx x0 (by simp)
      have h1 : x1 < x := hx x1 (by simp)
      simp only [interp]
      rw [if_neg (by push_neg; exact h0), if_neg (by push_neg; exact h1)]
      rw [ih (y1 :: yt) (by simp) (by simpa using hlen)
        (fun z hz => hx z (List.mem_cons_of_mem _ hz))]
      rfl

/-- Interpolated values stay between any lower and upper bound of the value
list: interpolation does not extrapolate. -/
theorem interp_bounds (xs ys : List ℝ) (x lo hi : ℝ) (hne : xs ≠ [])
    (hlen : xs.length = ys.length)
    (hlo : ∀ y ∈ ys, lo ≤ y) (hhi : ∀ y ∈ ys, y ≤ hi) :
    lo ≤ interp x xs ys ∧ interp x xs ys ≤ hi := by
  induction xs generalizing ys with
  | nil => simp at hne
  | cons x0 xt ih =>
    match xt, ys with
    | [], [y0] =>
      exact ⟨by simpa [interp] using hlo y0 (by simp), by simpa [interp] using hhi y0 (by simp)⟩
    | [], y0 :: y1 :: yt => simp at hlen
    | x1 :: xt', [] => simp at hlen
    | x1 :: xt', [y0] => simp at hlen
    | x1 :: xt', y0 :: y1 :: yt =>
      have hy0lo : lo ≤ y0 := hlo y0 (by simp)
      have hy0hi : y0 ≤ hi := hhi y0 (by simp)
      have hy1lo : lo ≤ y1 := hlo y1 (by simp)
      have hy1hi : y1 ≤ hi := hhi y1 (by simp)
      simp only [interp]
      by_cases hA : x ≤ x0
      · rw [if_pos hA]; exact ⟨hy0lo, hy0hi⟩
      · rw [if_neg hA]
        by_cases hB : x ≤ x1
        · rw [if_pos hB]
          push_neg at hA
          have hx01 : x0 < x1 := lt_of_lt_of_le hA hB
          have hs0 : 0 ≤ (x - x0) / (x1 - x0) := by
            apply div_nonneg <;> linarith
          have hs1 : (x - x0) / (x1 - x0) ≤ 1 := by
            rw [div_le_one (by linarith)]; linarith
          set s := (x - x0) / (x1 - x0) with hs
          have hval : y0 + (x - x0) * (y1 - y0) / (x1 - x0) = y0 + s * (y1 - y0) := by
            rw [hs]; ring
          rw [hval]
          constructor
          · nlinarith [mul_nonneg hs0 (sub_nonneg.mpr hy1lo)]
          · nlinarith [mul_nonneg hs0 (sub_nonneg.mpr hy1hi)]
        · rw [if_neg hB]
          exact ih (y1 :: yt) (by simp) (by simpa using hlen)
            (fun y hy => hlo y (List.mem_cons_of_mem _ hy))
            (fun y hy => hhi y (List.mem_cons_of_mem _ hy))

theorem cumtrapzAux_length (acc : ℝ) (l : List (ℝ × ℝ)) :
    (cumtrapzAux acc l).length = l.length := by
  induction l generalizing acc with
  | nil => rfl
  | cons a t ih =>
    match t with
    | [] => rfl
    | b :: t' => simpa [cumtrapzAux] using ih _

theorem cumtrapz_length (ys xs : List ℝ) :
    (cumtrapz ys xs).length = min ys.length xs.length := by
  simp [cumtrapz, cumtrapzAux_length]

theorem getD_map_of_lt (f : ℝ → ℝ) (l : List ℝ) (i : ℕ) (hi : i < l.length) :
    (l.map f).getD i 0 = f (l.getD i 0) := by
  rw [List.getD_eq_getElem _ _ (by simpa using hi), List.getD_eq_getElem _ _ hi]
  simp

theorem getD_zipWith_of_lt (f : ℝ → ℝ → ℝ) (as bs : List ℝ) (i : ℕ)
    (ha : i < as.length) (hb : i < bs.length) :
    (List.zipWith f as bs).getD i 0 = f (as.getD i 0) (bs.getD i 0) := by
  rw [List.getD_eq_getElem _ _ (by simp [List.length_zipWith]; omega),
    List.getD_eq_getElem _ _ ha, List.getD_eq_getElem _ _ hb]
  simp

theorem getD_range_map_of_lt (f : ℕ → ℝ) (n i : ℕ) (hi : i < n) :
    (((List.range n).map f).getD i 0) = f i := by
  rw [List.getD_eq_getElem _ _ (by simpa using hi)]
  simp

/-- The recursive cumulative trapezoid agrees with the closed-form sum at every
index inside the list. -/
theorem cumtrapzAux_getD (l : List (ℝ × ℝ)) (acc : ℝ) (k : ℕ) (hk : k < l.length) :
    (cumtrapzAux acc l).getD k 0 =
      acc + ∑ j ∈ Finset.range k,
        ((l.getD j (0, 0)).1 + (l.getD (j + 1) (0, 0)).1) / 2 *
          ((l.getD (j + 1) (0, 0)).2 - (l.getD j (0, 0)).2) := by
  induction l generalizing acc k with
  | nil => simp at hk
  | cons a t ih =>
    match t with
    | [] =>
      match k with
      | 0 => simp [cumtrapzAux]
      | (k' + 1) => simp at hk
    | b :: t' =>
      match k with
      | 0 => simp [cumtrapzAux]
      | (k' + 1) =>
        have hk' : k' < (b :: t').length := by simpa using hk
        have hrec : (cumtrapzAux acc ((a.1, a.2) :: (b.1, b.2) :: t')).getD (k' + 1) 0
            = (cumtrapzAux (acc + (a.1 + b.1) / 2 * (b.2 - a.2)) ((b.1, b.2) :: t')).getD k' 0 := by
          simp [cumtrapzAux]
        have ha : a = (a.1, a.2) := rfl
        have hb : b = (b.1, b.2) := rfl
        rw [ha, hb, hrec, ih _ _ hk']
        rw [Finset.sum_range_succ' _ k']
        simp only [List.getD_cons_succ, List.getD_cons_zero]
        ring

/-- Closed form for `cumtrapz` entries. -/
theorem cumtrapz_getD (ys xs : List ℝ) (k : ℕ) (hky : k < ys.length) (hkx : k < xs.length) :
    (cumtrapz ys xs).getD k 0 = trapSum ys xs k := by
  rw [cumtrapz, cumtrapzAux_getD _ _ _ (by simp [List.length_zip]; omega), trapSum]
  rw [zero_add]
  apply Finset.sum_congr rfl
  intro j hj
  have hjk : j < k := Finset.mem_range.mp hj
  have h1 : j < ys.length := by omega
  have h2 : j < xs.length := by omega
  have h3 : j + 1 < ys.length ∨ (j + 1 = k ∧ k < ys.length) := by omega
  have hy1 : j + 1 ≤ ys.length - 1 ∨ j + 1 < ys.length := by omega
  have hzj : (List.zip ys xs).getD j (0, 0) = (ys.getD j 0, xs.getD j 0) := by
    rw [List.getD_eq_getElem _ _ (by simp [List.length_zip]; omega),
      List.getD_eq_getElem _ _ h1, List.getD_eq_getElem _ _ h2]
    simp
  have hzj1 : (List.zip ys xs).getD (j + 1) (0, 0) = (ys.getD (j + 1) 0, xs.getD (j + 1) 0) := by
    rw [List.getD_eq_getElem _ _ (by simp [List.length_zip]; omega),
      List.getD_eq_getElem _ _ (by omega), List.getD_eq_getElem _ _ (by omega)]
    simp
  rw [hzj, hzj1]

theorem logspace_length (a b : ℝ) (num : ℕ) : (logspace a b num).length = num := by
  simp [logspace]

theorem linspace_length (a b : ℝ) (num : ℕ) : (linspace a b num).length = num := by
  simp [linspace]

/-- With two points, logspace of the base-10 logs returns exactly the
endpoints. -/
theorem logspace_two (x y : ℝ) (hx : 0 < x) (hy : 0 < y) :
    logspace (log10 x) (log10 y) 2 = [x, y] := by
  have h10 : (1 : ℝ) < 10 := by norm_num
  have e0 : log10 x + (log10 y - log10 x) * ((0 : ℕ) : ℝ) / ((2 : ℕ) - 1 : ℝ) = log10 x := by
    norm_num
  have e1 : log10 x + (log10 y - log10 x) * ((1 : ℕ) : ℝ) / ((2 : ℕ) - 1 : ℝ) = log10 y := by
    push_cast
    ring
  have hr : List.range 2 = [0, 1] := rfl
  simp only [logspace, hr, List.map_cons, List.map_nil]
  rw [e0, e1, log10, log10, Real.rpow_logb (by norm_num) (by norm_num) hx,
    Real.rpow_logb (by norm_num) (by norm_num) hy]

theorem logspace_headD (a b : ℝ) (num : ℕ) (hnum : 1 ≤ num) :
    (logspace a b num).headD 0 = (10 : ℝ) ^ a := by
  match num, hnum with
  | (n + 1), _ =>
    have : List.range (n + 1) = 0 :: (List.range n).map Nat.succ := List.range_succ_eq_map n
    simp only [logspace, this, List.map_cons, List.headD_cons]
    norm_num

theorem logspace_getLastD (a b : ℝ) (num : ℕ) (hnum : 2 ≤ num) :
    (logspace a b num).getLastD 0 = (10 : ℝ) ^ b := by
  match num, hnum with
  | (n + 2), _ =>
    rw [logspace, List.getLastD_eq_getLast?, List.getLast?_map,
      (by rfl : List.range (n + 2) = List.range (n + 1 + 1)), List.range_succ,
      List.getLast?_concat]
    simp only [Option.map_some', Option.getD_some]
    congr 1
    have hden : ((n + 2 : ℕ) : ℝ) - 1 ≠ 0 := by push_cast; linarith [Nat.cast_nonneg (α := ℝ) n]
    push_cast at hden ⊢
    field_simp
    ring

/-- logspace is strictly increasing when the exponent endpoints are strictly
ordered. -/
theorem logspace_chain (a b : ℝ) (num : ℕ) (hab : a < b) :
    List.Chain' (· < ·) (logspace a b num) := by
  rw [logspace, List.chain'_map]
  match num with
  | 0 => simp
  | (n + 1) =>
    rw [List.chain'_range_succ]
    intro m hm
    have hd : (0 : ℝ) < ((n + 1 : ℕ) : ℝ) - 1 := by
      push_cast
      have : (1 : ℝ) ≤ (n : ℝ) := by exact_mod_cast (by omega : 1 ≤ n)
      linarith
    apply (Real.rpow_lt_rpow_left_iff (by norm_num : (1 : ℝ) < 10)).mpr
    apply add_lt_add_left
    rw [div_lt_div_iff_of_pos_right hd]
    have hba : (0 : ℝ) < b - a := by linarith
    have hmc : (m : ℝ) < ((m + 1 : ℕ) : ℝ) := by push_cast; linarith
    nlinarith

/-- Every logspace point is at least 10 to the left endpoint when the
exponents are ordered. -/
theorem logspace_mem_ge (a b : ℝ) (num : ℕ) (hab : a ≤ b) :
    ∀ z ∈ logspace a b num, (10 : ℝ) ^ a ≤ z := by
  intro z hz
  rw [logspace, List.mem_map] at hz
  obtain ⟨i, hi, rfl⟩ := hz
  apply (Real.rpow_le_rpow_left_iff (by norm_num : (1 : ℝ) < 10)).mpr
  have hnn : 0 ≤ (b - a) * (i : ℝ) / ((num : ℝ) - 1) := by
    match num with
    | 0 => simp at hi
    | 1 =>
      have : i = 0 := by simpa using hi
      simp [this]
    | (n + 2) =>
      apply div_nonneg (mul_nonneg (by linarith) (by positivity))
      push_cast
      have : (0 : ℝ) ≤ (n : ℝ) := by positivity
      linarith
  linarith

theorem mtovCut_pos (a : ℝ) (t : List ℝ) : 1 ≤ mtovCut (a :: t) := by
  match t with
  | [] => simp [mtovCut]
  | b :: t' =>
    by_cases hab : a < b
    · simp [mtovCut, if_pos hab]
    · simp [mtovCut, if_neg hab]

theorem mtovCut_le_length (ms : List ℝ) : mtovCut ms ≤ ms.length := by
  induction ms with
  | nil => simp [mtovCut]
  | cons a t ih =>
    match t with
    | [] => simp [mtovCut]
    | b :: t' =>
      by_cases hab : a < b
      · rw [mtovCut, if_pos hab]
        simp only [List.length_cons] at ih ⊢
        omega
      · rw [mtovCut, if_neg hab]
        simp only [List.length_cons]
        omega

/-- The retained prefix of the mass sequence is strictly increasing. -/
theorem mtov_take_chain (ms : List ℝ) : List.Chain' (· < ·) (ms.take (mtovCut ms)) := by
  induction ms with
  | nil => simp
  | cons a t ih =>
    match t with
    | [] => simp [mtovCut]
    | b :: t' =>
      by_cases hab : a < b
      · rw [mtovCut, if_pos hab, (by omega : 1 + mtovCut (b :: t') = mtovCut (b :: t') + 1),
          List.take_succ_cons]
        rw [List.chain'_cons']
        constructor
        · intro y hy
          have h1 : 1 ≤ mtovCut (b :: t') := mtovCut_pos b t'
          match hmc : mtovCut (b :: t'), h1 with
          | (k + 1), _ =>
            rw [hmc] at hy
            simp only [List.take_succ_cons, List.head?_cons] at hy
            cases hy
            exact hab
        · exact ih
      · rw [mtovCut, if_neg hab]
        simp

/-- Either nothing is cut, or the first discarded entry indeed fails to
increase past its predecessor. -/
theorem mtovCut_char (ms : List ℝ) :
    mtovCut ms = ms.length ∨
      (mtovCut ms < ms.length ∧ ms.getD (mtovCut ms) 0 ≤ ms.getD (mtovCut ms - 1) 0) := by
  induction ms with
  | nil => left; simp [mtovCut]
  | cons a t ih =>
    match t with
    | [] => left; simp [mtovCut]
    | b :: t' =>
      by_cases hab : a < b
      · rw [mtovCut, if_pos hab]
        rcases ih with heq | ⟨hlt, hle⟩
        · left
          simp only [List.length_cons] at heq ⊢
          omega
        · right
          have h1 : 1 ≤ mtovCut (b :: t') := mtovCut_pos b t'
          constructor
          · simp only [List.length_cons] at hlt ⊢; omega
          · match hmc : mtovCut (b :: t'), h1 with
            | (k + 1), _ =>
              rw [hmc] at hle hlt
              have e1 : 1 + (k + 1) = (k + 1) + 1 := by omega
              rw [e1, List.getD_cons_succ, (by omega : (k + 1) + 1 - 1 = k + 1),
                List.getD_cons_succ]
              simpa using hle
      · rw [mtovCut, if_neg hab]
        right
        refine ⟨by simp only [List.length_cons]; omega, ?_⟩
        simp only [List.getD_cons_succ, List.getD_cons_zero]
        push_neg at hab
        simpa using hab

theorem map_fst_zip_sublist {α β : Type} (as : List α) (bs : List β) :
    List.Sublist ((as.zip bs).map Prod.fst) as := by
  induction as generalizing bs with
  | nil => simp
  | cons a t ih =>
    match bs with
    | [] => simp
    | b :: bt =>
      simp only [List.zip_cons_cons, List.map_cons]
      exact List.Sublist.cons₂ a (ih bt)

theorem clip_mem (v lo hi : ℝ) (h : lo ≤ hi) : lo ≤ clip v lo hi ∧ clip v lo hi ≤ hi :=
  ⟨le_min (le_max_right v lo) h, min_le_right _ _⟩

theorem diffL_length (xs : List ℝ) : (diffL xs).length = xs.length - 1 := by
  simp [diffL]

theorem headD_mem (l : List ℝ) (h : l ≠ []) : l.headD 0 ∈ l := by
  match l with
  | a :: t => simp

theorem mem_zipWith_prop {α β : Type} (f : α → β → ℝ) (P : ℝ → Prop)
    (h : ∀ a b, P (f a b)) (as : List α) (bs : List β) :
    ∀ v ∈ List.zipWith f as bs, P v := by
  induction as generalizing bs with
  | nil => simp
  | cons a t ih =>
    match bs with
    | [] => simp
    | b :: bt =>
      intro v hv
      simp only [List.zipWith_cons_cons, List.mem_cons] at hv
      rcases hv with rfl | hv
      · exact h a b
      · exact ih bt v hv

/-- C9: constructing a MetaModel_with_CSE_EOS_model with speed-of-sound grid
arrays ngrids and cs2grids of different lengths fails at construction, so no
CSE table is produced; with equal lengths the construction succeeds (it is not
rejected for this reason). -/
theorem c9_cse_grid_length_check (a : MetaModelArgs) (nbreak nmax : ℝ)
    (ngrids cs2grids : List ℝ) (ndat_CSE : ℕ) :
    (ngrids.length ≠ cs2grids.length →
      mkCSE a nbreak ngrids cs2grids nmax ndat_CSE =
        Except.error "ngrids and cs2grids must have the same length.") ∧
    (ngrids.length = cs2grids.length →
      mkCSE a nbreak ngrids cs2grids nmax ndat_CSE =
        Except.ok (buildCSE a nbreak ngrids cs2grids nmax ndat_CSE)) := by
  constructor
  · intro h
    rw [mkCSE, if_neg h]
  · intro h
    rw [mkCSE, if_pos h]

theorem c9_cse_grid_length_check_witness :
    mkCSE argsA 0.32 [0.5] [] 0.64 2 =
      Except.error "ngrids and cs2grids must have the same length." ∧
    mkCSE argsA 0.32 [0.5] [0.5] 0.64 2 =
      Except.ok (buildCSE argsA 0.32 [0.5] [0.5] 0.64 2) :=
  ⟨(c9_cse_grid_length_check argsA 0.32 0.64 [0.5] [] 2).1 (by simp),
   (c9_cse_grid_length_check argsA 0.32 0.64 [0.5] [0.5] 2).2 (by simp)⟩

/-- C5: the stellar sequence returned by construct_family is truncated at the
maximum-mass turning point: the returned mass column is the longest strictly
increasing prefix of the computed mass sequence, hence non-decreasing, and the
first discarded entry (when the sequence is cut at all) fails to increase past
its predecessor. -/
theorem c5_family_truncated_at_turning_point
    (solver : List ℝ × List ℝ × List ℝ × List ℝ → ℝ → ℝ × ℝ × ℝ)
    (eos : List ℝ × List ℝ × List ℝ × List ℝ × List ℝ) (ndat : ℕ) (min_nsat : ℝ) :
    (construct_family solver eos ndat min_nsat).2.1 =
      (familyMassGrid solver eos ndat min_nsat).take
        (mtovCut (familyMassGrid solver eos ndat min_nsat)) ∧
    List.Chain' (· ≤ ·) (construct_family solver eos ndat min_nsat).2.1 ∧
    (mtovCut (familyMassGrid solver eos ndat min_nsat) =
        (familyMassGrid solver eos ndat min_nsat).length ∨
      (mtovCut (familyMassGrid solver eos ndat min_nsat) <
          (familyMassGrid solver eos ndat min_nsat).length ∧
        (familyMassGrid solver eos ndat min_nsat).getD
            (mtovCut (familyMassGrid solver eos ndat min_nsat)) 0 ≤
          (familyMassGrid solver eos ndat min_nsat).getD
            (mtovCut (familyMassGrid solver eos ndat min_nsat) - 1) 0)) := by
  have hmass : (construct_family solver eos ndat min_nsat).2.1 =
      (familyMassGrid solver eos ndat min_nsat).take
        (mtovCut (familyMassGrid solver eos ndat min_nsat)) := by
    simp only [construct_family, limit_by_MTOV, familyMassGrid, familyPcs, List.map_map]
    rfl
  refine ⟨hmass, ?_, mtovCut_char _⟩
  rw [hmass]
  exact (mtov_take_chain _).imp fun a b h => le_of_lt h

/-- C2 (amended): of the five interpolation queries, pressure and energy
density from pseudo-enthalpy and pseudo-enthalpy from pressure are log-log;
dloge/dlogp from pseudo-enthalpy is plain linear; and pressure from number
density interpolates the logarithm of pressure against the unlogged number
density (semi-log), not log-log. -/
theorem c2_interpolation_spaces (n p e : List ℝ) (hq x : ℝ) :
    pressure_from_pseudo_enthalpy (mkInterpolateEOS n p e) hq
        = specLogLogQuery hq (mkInterpolateEOS n p e).h (mkInterpolateEOS n p e).p ∧
    energy_density_from_pseudo_enthalpy (mkInterpolateEOS n p e) hq
        = specLogLogQuery hq (mkInterpolateEOS n p e).h (mkInterpolateEOS n p e).e ∧
    pseudo_enthalpy_from_pressure (mkInterpolateEOS n p e) x
        = specLogLogQuery x (mkInterpolateEOS n p e).p (mkInterpolateEOS n p e).h ∧
    dloge_dlogp_from_pseudo_enthalpy (mkInterpolateEOS n p e) hq
        = interp hq (mkInterpolateEOS n p e).h (mkInterpolateEOS n p e).dloge_dlogp ∧
    pressure_from_number_density (mkInterpolateEOS n p e) x
        = specSemiLogQuery x (mkInterpolateEOS n p e).n (mkInterpolateEOS n p e).p :=
  ⟨rfl, rfl, rfl, rfl, rfl⟩

/-- C2 (counterexample): on the stored table n = [1, 8], p = [1, 2],
pressure_from_number_density at n = 2 differs from the log-log interpolation
the claim asserts: the code gives exp(log 2 / 7), log-log would give
exp(log 2 / 3). -/
theorem c2_counterexample :
    pressure_from_number_density
        (mkInterpolateEOS [1 / fm_inv3_to_geometric, 8 / fm_inv3_to_geometric]
          [1 / MeV_fm_inv3_to_geometric, 2 / MeV_fm_inv3_to_geometric]
          [1 / MeV_fm_inv3_to_geometric, 2 / MeV_fm_inv3_to_geometric]) 2 ≠
      specLogLogQuery 2
        (mkInterpolateEOS [1 / fm_inv3_to_geometric, 8 / fm_inv3_to_geometric]
          [1 / MeV_fm_inv3_to_geometric, 2 / MeV_fm_inv3_to_geometric]
          [1 / MeV_fm_inv3_to_geometric, 2 / MeV_fm_inv3_to_geometric]).n
        (mkInterpolateEOS [1 / fm_inv3_to_geometric, 8 / fm_inv3_to_geometric]
          [1 / MeV_fm_inv3_to_geometric, 2 / MeV_fm_inv3_to_geometric]
          [1 / MeV_fm_inv3_to_geometric, 2 / MeV_fm_inv3_to_geometric]).p := by
  have hfm : fm_inv3_to_geometric ≠ 0 := by norm_num [fm_inv3_to_geometric]
  have hMeV : MeV_fm_inv3_to_geometric ≠ 0 := by norm_num [MeV_fm_inv3_to_geometric]
  have hn : (mkInterpolateEOS [1 / fm_inv3_to_geometric, 8 / fm_inv3_to_geometric]
      [1 / MeV_fm_inv3_to_geometric, 2 / MeV_fm_inv3_to_geometric]
      [1 / MeV_fm_inv3_to_geometric, 2 / MeV_fm_inv3_to_geometric]).n = [1, 8] := by
    simp [mkInterpolateEOS, div_mul_cancel₀, hfm]
  have hp : (mkInterpolateEOS [1 / fm_inv3_to_geometric, 8 / fm_inv3_to_geometric]
      [1 / MeV_fm_inv3_to_geometric, 2 / MeV_fm_inv3_to_geometric]
      [1 / MeV_fm_inv3_to_geometric, 2 / MeV_fm_inv3_to_geometric]).p = [1, 2] := by
    simp [mkInterpolateEOS, div_mul_cancel₀, hMeV]
  have hlogp : (mkInterpolateEOS [1 / fm_inv3_to_geometric, 8 / fm_inv3_to_geometric]
      [1 / MeV_fm_inv3_to_geometric, 2 / MeV_fm_inv3_to_geometric]
      [1 / MeV_fm_inv3_to_geometric, 2 / MeV_fm_inv3_to_geometric]).logp
      = [Real.log 1, Real.log 2] := by
    have : (mkInterpolateEOS [1 / fm_inv3_to_geometric, 8 / fm_inv3_to_geometric]
        [1 / MeV_fm_inv3_to_geometric, 2 / MeV_fm_inv3_to_geometric]
        [1 / MeV_fm_inv3_to_geometric, 2 / MeV_fm_inv3_to_geometric]).logp
        = ((mkInterpolateEOS [1 / fm_inv3_to_geometric, 8 / fm_inv3_to_geometric]
        [1 / MeV_fm_inv3_to_geometric, 2 / MeV_fm_inv3_to_geometric]
        [1 / MeV_fm_inv3_to_geometric, 2 / MeV_fm_inv3_to_geometric]).p).map Real.log := rfl
    rw [this, hp]
    rfl
  have hL : (0 : ℝ) < Real.log 2 := Real.log_pos (by norm_num)
  rw [pressure_from_number_density, specLogLogQuery, hn, hp, hlogp]
  have hlhs : interp 2 [1, 8] [Real.log 1, Real.log 2] = Real.log 2 / 7 := by
    rw [interp, if_neg (by norm_num), if_pos (by norm_num)]
    rw [Real.log_one]
    ring
  have hlog8 : Real.log 8 = 3 * Real.log 2 := by
    rw [(by norm_num : (8 : ℝ) = 2 ^ 3), Real.log_pow]
    push_cast
    ring
  have hrhs : interp (Real.log 2) ([(1 : ℝ), 8].map Real.log)
      ([(1 : ℝ), 2].map Real.log) = Real.log 2 / 3 := by
    simp only [List.map_cons, List.map_nil]
    rw [interp, if_neg (by rw [Real.log_one]; push_neg; exact hL),
      if_pos (by apply Real.log_le_log (by norm_num) (by norm_num))]
    rw [Real.log_one, hlog8]
    field_simp
    ring
  rw [hlhs, hrhs]
  intro hcontra
  have h := Real.exp_injective hcontra
  linarith

theorem prependHead_clip_bounds (zs : List ℝ) (lo : ℝ) (hlo : lo ≤ 1) (hne : zs ≠ []) :
    ∀ v ∈ prependHead (zs.map fun w => clip w lo 1), lo ≤ v ∧ v ≤ 1 := by
  intro v hv
  have hne' : zs.map (fun w => clip w lo 1) ≠ [] := by simpa using hne
  have hmem : v ∈ zs.map fun w => clip w lo 1 := by
    rcases List.mem_cons.mp hv with h | h
    · rw [h]
      exact headD_mem _ hne'
    · exact h
  obtain ⟨w, hw, rfl⟩ := List.mem_map.mp hmem
  exact clip_mem w lo 1 hlo

theorem mm_cs2_shape (m : MetaModel) (ns : List ℝ) (cs2_min : ℝ) (h1 : cs2_min ≤ 1)
    (h2 : 2 ≤ ns.length) :
    (∀ v ∈ cs2_from_number_density_nuclear_unit m ns cs2_min, cs2_min ≤ v ∧ v ≤ 1) ∧
    (cs2_from_number_density_nuclear_unit m ns cs2_min).length = ns.length := by
  have hexp : cs2_from_number_density_nuclear_unit m ns cs2_min =
      prependHead ((List.zipWith (fun a b => a / b)
        (diffL (pressure_from_number_density_nuclear_unit m ns))
        (diffL (energy_density_from_number_density_nuclear_unit m ns))).map
          fun v => clip v cs2_min 1) := rfl
  set zs := List.zipWith (fun a b => a / b)
    (diffL (pressure_from_number_density_nuclear_unit m ns))
    (diffL (energy_density_from_number_density_nuclear_unit m ns)) with hzs
  have hzlen : zs.length = ns.length - 1 := by
    rw [hzs]
    simp [List.length_zipWith, diffL_length, pressure_from_number_density_nuclear_unit,
      energy_density_from_number_density_nuclear_unit]
  have hne : zs ≠ [] := by
    intro hc
    rw [hc] at hzlen
    simp only [List.length_nil] at hzlen
    omega
  constructor
  · rw [hexp]
    exact prependHead_clip_bounds zs cs2_min h1 hne
  · rw [hexp, prependHead]
    simp only [List.length_cons, List.length_map, hzlen]
    omega

theorem cse_cs2_shape (c : CSEModel) (ns : List ℝ) (cs2_min : ℝ) (h1 : cs2_min ≤ 1)
    (h2 : 2 ≤ ns.length) :
    (∀ v ∈ cse_cs2_from_number_density_nuclear_unit c ns cs2_min, cs2_min ≤ v ∧ v ≤ 1) ∧
    (cse_cs2_from_number_density_nuclear_unit c ns cs2_min).length = ns.length := by
  constructor
  · rw [cse_cs2_from_number_density_nuclear_unit]
    exact mem_zipWith_prop _ _ (fun a b => clip_mem _ cs2_min 1 h1) ns _
  · rw [cse_cs2_from_number_density_nuclear_unit, List.length_zipWith,
      (mm_cs2_shape c.metamodel ns (1 / 1000) (by norm_num) h2).2]
    omega

/-- C6: both speed-of-sound queries (the MetaModel_EOS_model version and the
MetaModel_with_CSE_EOS_model version) return values in [cs2_min, 1.0] with the
same length as the input density array (for tables of at least two points and
a lower bound not exceeding the causal ceiling), and the cs2 table stored by a
constructed metamodel obeys the default bounds [1e-3, 1.0]. -/
theorem c6_cs2_clipped_to_causal_interval :
    (∀ (m : MetaModel) (ns : List ℝ) (cs2_min : ℝ), cs2_min ≤ 1 → 2 ≤ ns.length →
      (∀ v ∈ cs2_from_number_density_nuclear_unit m ns cs2_min, cs2_min ≤ v ∧ v ≤ 1) ∧
      (cs2_from_number_density_nuclear_unit m ns cs2_min).length = ns.length) ∧
    (∀ (c : CSEModel) (ns : List ℝ) (cs2_min : ℝ), cs2_min ≤ 1 → 2 ≤ ns.length →
      (∀ v ∈ cse_cs2_from_number_density_nuclear_unit c ns cs2_min, cs2_min ≤ v ∧ v ≤ 1) ∧
      (cse_cs2_from_number_density_nuclear_unit c ns cs2_min).length = ns.length) ∧
    (∀ a : MetaModelArgs, 2 ≤ (metaModelTable a).1.length →
      ∀ v ∈ (mkMetaModel a).cs2, 1 / 1000 ≤ v ∧ v ≤ 1) := by
  refine ⟨fun m ns cs2_min h1 h2 => mm_cs2_shape m ns cs2_min h1 h2,
    fun c ns cs2_min h1 h2 => cse_cs2_shape c ns cs2_min h1 h2, fun a hlen => ?_⟩
  have hcs : (mkMetaModel a).cs2 =
      cs2_from_number_density_nuclear_unit (coreModel a) (metaModelTable a).1 (1 / 1000) := rfl
  rw [hcs]
  exact (mm_cs2_shape _ _ _ (by norm_num) hlen).1

theorem crust_ns_argsA_eval : crust_ns argsA = [0.01, 0.02] := by
  rw [crust_ns, crustTriples]
  norm_num [argsA, List.filter_cons]

theorem table_argsA_len : 2 ≤ (metaModelTable argsA).1.length := by
  have hsp : argsA.use_spline = false := rfl
  have h1 : (metaModelTable argsA).1 = crust_ns argsA ++ (mmTriples argsA).map (fun t => t.1) := by
    rw [metaModelTable]
    simp only [hsp, Bool.false_eq_true, if_false]
  rw [h1, List.length_append, crust_ns_argsA_eval]
  simp

theorem c6_cs2_clipped_to_causal_interval_witness :
    (cs2_from_number_density_nuclear_unit (coreModel argsA) [1, 2] (1 / 1000)).length = 2 ∧
    (cse_cs2_from_number_density_nuclear_unit (buildCSE argsA 0.32 [0.5] [0.5] 0.64 2)
        [1, 2] (1 / 1000)).length = 2 ∧
    (1 / 1000 ≤ (mkMetaModel argsA).cs2.headD 0 ∧ (mkMetaModel argsA).cs2.headD 0 ≤ 1) := by
  refine ⟨?_, ?_, ?_⟩
  · exact (c6_cs2_clipped_to_causal_interval.1 (coreModel argsA) [1, 2] (1 / 1000)
      (by norm_num) (by simp)).2
  · exact (c6_cs2_clipped_to_causal_interval.2.1 (buildCSE argsA 0.32 [0.5] [0.5] 0.64 2)
      [1, 2] (1 / 1000) (by norm_num) (by simp)).2
  · have hlen := table_argsA_len
    have hcslen : (mkMetaModel argsA).cs2.length = (metaModelTable argsA).1.length :=
      (mm_cs2_shape (coreModel argsA) (metaModelTable argsA).1 (1 / 1000) (by norm_num) hlen).2
    have hne : (mkMetaModel argsA).cs2 ≠ [] := by
      intro hc
      rw [hc] at hcslen
      simp only [List.length_nil] at hcslen
      omega
    exact c6_cs2_clipped_to_causal_interval.2.2 argsA hlen _ (headD_mem _ hne)

theorem sum_if_eq_filter_sum (P : ℂ → Prop) [DecidablePred P] (ys : List ℂ) :
    (ys.map fun y => if P y then y.re else 0).sum
      = ((ys.filter fun y => decide (P y)).map Complex.re).sum := by
  induction ys with
  | nil => simp
  | cons a t ih =>
    by_cases h : P a
    · simp [List.filter_cons, h, ih]
    · simp [List.filter_cons, h, ih]

/-- C1: with fix_proton_fraction false, compute_proton_fraction forms the
cubic 8·e_sym·y³ + ħc·(3π²n)^(1/3)·y + (−4·e_sym − (m_n − m_p)), obtains its
roots from the closed-form solver, and when exactly one root y has zero
imaginary part and real part in [0, 1] (and is indeed a root) it returns the
proton fraction y³ for a y solving the cubic in [0, 1]; when no root
qualifies it returns exactly 0; and proton_fraction with the flag false is
compute_proton_fraction. -/
theorem c1_compute_proton_fraction_root_selection :
    (∀ (m : MetaModel) (n : ℝ) (y₀ : ℂ),
      ((m.rootfinder (8 * m.esym n, 0,
          hbarc * (3 * Real.pi ^ 2 * n) ^ ((1 : ℝ) / 3),
          -4 * m.esym n - (m_n - m_p))).filter
        (fun y => decide (y.im = 0 ∧ 0 ≤ y.re ∧ y.re ≤ 1)) = [y₀]) →
      (((8 * m.esym n : ℝ) : ℂ) * y₀ ^ 3 +
          ((hbarc * (3 * Real.pi ^ 2 * n) ^ ((1 : ℝ) / 3) : ℝ) : ℂ) * y₀ +
          ((-4 * m.esym n - (m_n - m_p) : ℝ) : ℂ) = 0) →
      (compute_proton_fraction m [n] = [y₀.re ^ 3] ∧
        8 * m.esym n * y₀.re ^ 3 + hbarc * (3 * Real.pi ^ 2 * n) ^ ((1 : ℝ) / 3) * y₀.re
          + (-4 * m.esym n - (m_n - m_p)) = 0 ∧
        0 ≤ y₀.re ∧ y₀.re ≤ 1)) ∧
    (∀ (m : MetaModel) (n : ℝ),
      (∀ y ∈ m.rootfinder (8 * m.esym n, 0,
          hbarc * (3 * Real.pi ^ 2 * n) ^ ((1 : ℝ) / 3),
          -4 * m.esym n - (m_n - m_p)), ¬(y.im = 0 ∧ 0 ≤ y.re ∧ y.re ≤ 1)) →
      compute_proton_fraction m [n] = [0]) ∧
    (∀ (m : MetaModel) (ns : List ℝ), m.fix_proton_fraction = false →
      ns.map (proton_fraction_scalar m) = compute_proton_fraction m ns) := by
  refine ⟨?_, ?_, ?_⟩
  · intro m n y₀ hfilter hroot
    have hy₀mem : y₀ ∈ (m.rootfinder (8 * m.esym n, 0,
        hbarc * (3 * Real.pi ^ 2 * n) ^ ((1 : ℝ) / 3),
        -4 * m.esym n - (m_n - m_p))).filter
        (fun y => decide (y.im = 0 ∧ 0 ≤ y.re ∧ y.re ≤ 1)) := by
      rw [hfilter]
      simp
    have hq := List.of_mem_filter hy₀mem
    rw [decide_eq_true_eq] at hq
    obtain ⟨him, hre0, hre1⟩ := hq
    have hsum : compute_proton_fraction_scalar m n = y₀.re ^ 3 := by
      rw [compute_proton_fraction_scalar]
      have := sum_if_eq_filter_sum (fun y : ℂ => y.im = 0 ∧ 0 ≤ y.re ∧ y.re ≤ 1)
        (m.rootfinder (8 * m.esym n, 0,
          hbarc * (3 * Real.pi ^ 2 * n) ^ ((1 : ℝ) / 3),
          -4 * m.esym n - (m_n - m_p)))
      rw [this, hfilter]
      simp
    have hyre : y₀ = ((y₀.re : ℝ) : ℂ) := by
      apply Complex.ext
      · simp
      · simp [him]
    have hrootre : 8 * m.esym n * y₀.re ^ 3 +
        hbarc * (3 * Real.pi ^ 2 * n) ^ ((1 : ℝ) / 3) * y₀.re
        + (-4 * m.esym n - (m_n - m_p)) = 0 := by
      rw [hyre] at hroot
      have hcast : (((8 * m.esym n * y₀.re ^ 3 +
          hbarc * (3 * Real.pi ^ 2 * n) ^ ((1 : ℝ) / 3) * y₀.re
          + (-4 * m.esym n - (m_n - m_p))) : ℝ) : ℂ) = 0 := by
        push_cast at hroot ⊢
        linear_combination hroot
      exact_mod_cast hcast
    refine ⟨?_, hrootre, hre0, hre1⟩
    rw [compute_proton_fraction, List.map_cons, List.map_nil, hsum]
  · intro m n hnone
    have hfilter : (m.rootfinder (8 * m.esym n, 0,
        hbarc * (3 * Real.pi ^ 2 * n) ^ ((1 : ℝ) / 3),
        -4 * m.esym n - (m_n - m_p))).filter
        (fun y => decide (y.im = 0 ∧ 0 ≤ y.re ∧ y.re ≤ 1)) = [] := by
      rw [List.filter_eq_nil_iff]
      intro y hy
      rw [decide_eq_true_eq]
      exact hnone y hy
    have hsum : compute_proton_fraction_scalar m n = 0 := by
      rw [compute_proton_fraction_scalar]
      have := sum_if_eq_filter_sum (fun y : ℂ => y.im = 0 ∧ 0 ≤ y.re ∧ y.re ≤ 1)
        (m.rootfinder (8 * m.esym n, 0,
          hbarc * (3 * Real.pi ^ 2 * n) ^ ((1 : ℝ) / 3),
          -4 * m.esym n - (m_n - m_p)))
      rw [this, hfilter]
      simp
    rw [compute_proton_fraction, List.map_cons, List.map_nil, hsum]
  · intro m ns hfix
    rw [compute_proton_fraction]
    apply List.map_congr_left
    intro n hn
    rw [proton_fraction_scalar, hfix]
    simp

theorem c1_compute_proton_fraction_root_selection_witness :
    compute_proton_fraction pfModelA [1 / (3 * Real.pi ^ 2)] = [(1 / 2 : ℝ) ^ 3] ∧
    compute_proton_fraction pfModelB [1 / (3 * Real.pi ^ 2)] = [0] := by
  have hpi : 3 * Real.pi ^ 2 * (1 / (3 * Real.pi ^ 2)) = 1 := by
    have hp : Real.pi ≠ 0 := Real.pi_ne_zero
    field_simp
  have hc : hbarc * (3 * Real.pi ^ 2 * (1 / (3 * Real.pi ^ 2))) ^ ((1 : ℝ) / 3) = hbarc := by
    rw [hpi, Real.one_rpow, mul_one]
  have hesym : pfModelA.esym (1 / (3 * Real.pi ^ 2)) = (hbarc / 2 - (m_n - m_p)) / 3 := by
    rw [MetaModel.esym]
    simp [pfModelA, polyval]
  constructor
  · have hfilter : ((pfModelA.rootfinder (8 * pfModelA.esym (1 / (3 * Real.pi ^ 2)), 0,
        hbarc * (3 * Real.pi ^ 2 * (1 / (3 * Real.pi ^ 2))) ^ ((1 : ℝ) / 3),
        -4 * pfModelA.esym (1 / (3 * Real.pi ^ 2)) - (m_n - m_p))).filter
        (fun y => decide (y.im = 0 ∧ 0 ≤ y.re ∧ y.re ≤ 1))) = [((1 / 2 : ℝ) : ℂ)] := by
      show ([((1 / 2 : ℝ) : ℂ), ((2 : ℝ) : ℂ), Complex.I].filter
        (fun y => decide (y.im = 0 ∧ 0 ≤ y.re ∧ y.re ≤ 1))) = [((1 / 2 : ℝ) : ℂ)]
      rw [List.filter_cons, List.filter_cons, List.filter_cons, List.filter_nil]
      norm_num
    have hroot : (((8 * pfModelA.esym (1 / (3 * Real.pi ^ 2)) : ℝ) : ℂ))
          * ((1 / 2 : ℝ) : ℂ) ^ 3 +
        ((hbarc * (3 * Real.pi ^ 2 * (1 / (3 * Real.pi ^ 2))) ^ ((1 : ℝ) / 3) : ℝ) : ℂ)
          * ((1 / 2 : ℝ) : ℂ) +
        ((-4 * pfModelA.esym (1 / (3 * Real.pi ^ 2)) - (m_n - m_p) : ℝ) : ℂ) = 0 := by
      rw [hesym, hc]
      push_cast
      ring
    have h := c1_compute_proton_fraction_root_selection.1 pfModelA (1 / (3 * Real.pi ^ 2))
      ((1 / 2 : ℝ) : ℂ) hfilter hroot
    have h1 := h.1
    simpa using h1
  · apply c1_compute_proton_fraction_root_selection.2.1 pfModelB (1 / (3 * Real.pi ^ 2))
    intro y hy
    have hy' : y ∈ [Complex.I, ((2 : ℝ) : ℂ), ((-1 : ℝ) : ℂ)] := hy
    simp only [List.mem_cons, List.not_mem_nil, or_false] at hy'
    rcases hy' with rfl | rfl | rfl
    · norm_num
    · norm_num
    · norm_num

theorem headD_map (f : ℝ → ℝ) (l : List ℝ) (h : l ≠ []) :
    (l.map f).headD 0 = f (l.headD 0) := by
  match l with
  | a :: t => rfl

theorem getLastD_map (f : ℝ → ℝ) (l : List ℝ) (h : l ≠ []) :
    (l.map f).getLastD 0 = f (l.getLastD 0) := by
  obtain ⟨x, hx⟩ := Option.isSome_iff_exists.mp (List.getLast?_isSome.mpr h)
  rw [List.getLastD_eq_getLast?, List.getLastD_eq_getLast?, List.getLast?_map, hx]
  rfl

theorem getLastD_mem (l : List ℝ) (h : l ≠ []) : l.getLastD 0 ∈ l := by
  obtain ⟨x, hx⟩ := Option.isSome_iff_exists.mp (List.getLast?_isSome.mpr h)
  rw [List.getLastD_eq_getLast?, hx]
  exact List.mem_of_mem_getLast? hx

/-- In a strictly increasing list every member is at most the last entry. -/
theorem mem_le_getLastD (l : List ℝ) (hc : List.Chain' (· < ·) l) (x : ℝ) (hx : x ∈ l) :
    x ≤ l.getLastD 0 := by
  have hne : l ≠ [] := List.ne_nil_of_mem hx
  have hlen : 0 < l.length := List.length_pos.mpr hne
  obtain ⟨i, hi, rfl⟩ := List.mem_iff_getElem.mp hx
  have hlast : l.getLastD 0 = l.getD (l.length - 1) 0 := by
    rw [List.getLastD_eq_getLast?, List.getLast?_eq_getElem?,
      List.getD_eq_getElem _ _ (by omega)]
    simp [List.getElem?_eq_getElem (show l.length - 1 < l.length by omega)]
  rw [hlast, List.getD_eq_getElem _ _ (by omega : l.length - 1 < l.length)]
  rcases eq_or_lt_of_le (show i ≤ l.length - 1 by omega) with heq | hlt
  · subst heq
    exact le_refl _
  · have hp := List.chain'_iff_pairwise.mp hc
    exact le_of_lt (List.pairwise_iff_getElem.mp hp i (l.length - 1) hi (by omega) hlt)

/-- Below-range clamping of a log-log query. -/
theorem loglog_below (xs ys : List ℝ) (q : ℝ) (hq : 0 < q) (hxsne : xs ≠ [])
    (hysne : ys ≠ []) (hlen : xs.length = ys.length)
    (hypos : ∀ y ∈ ys, 0 < y) (hle : q ≤ xs.headD 0) :
    Real.exp (interp (Real.log q) (xs.map Real.log) (ys.map Real.log)) = ys.headD 0 := by
  rw [interp_headD _ _ _ (by simpa using hxsne) (by simp [hlen])
    (by rw [headD_map _ _ hxsne]; exact Real.log_le_log hq hle)]
  rw [headD_map _ _ hysne]
  exact Real.exp_log (hypos _ (headD_mem _ hysne))

/-- Above-range clamping of a log-log query. -/
theorem loglog_above (xs ys : List ℝ) (q : ℝ) (hxs : List.Chain' (· < ·) xs)
    (hxpos : ∀ x ∈ xs, 0 < x) (hxsne : xs ≠ []) (hysne : ys ≠ [])
    (hlen : xs.length = ys.length) (hypos : ∀ y ∈ ys, 0 < y)
    (hgt : xs.getLastD 0 < q) :
    Real.exp (interp (Real.log q) (xs.map Real.log) (ys.map Real.log)) = ys.getLastD 0 := by
  rw [interp_getLastD _ _ _ (by simpa using hxsne) (by simp [hlen]) ?_]
  · rw [getLastD_map _ _ hysne]
    exact Real.exp_log (hypos _ (getLastD_mem _ hysne))
  · intro z hz
    obtain ⟨x, hx, rfl⟩ := List.mem_map.mp hz
    exact Real.log_lt_log (hxpos x hx) (lt_of_le_of_lt (mem_le_getLastD xs hxs x hx) hgt)

/-- C10: queries outside the stored table range clamp to the boundary table
value for each of the five interpolation functions (below the first knot and
above the last knot), and consequently returned pseudo-enthalpy values stay
between any bounds enclosing the pseudo-enthalpy column.  Stated for a table
with positive entries (logarithms are singular otherwise) whose columns have
matching lengths and strictly increasing knots where the query direction needs
them. -/
theorem c10_out_of_range_queries_clamp (m : InterpolateEOS)
    (hlogp : m.logp = m.p.map Real.log) (hlogh : m.logh = m.h.map Real.log)
    (hloge : m.loge = m.e.map Real.log)
    (hppos : ∀ x ∈ m.p, 0 < x) (hhpos : ∀ x ∈ m.h, 0 < x) (hepos : ∀ x ∈ m.e, 0 < x)
    (hpne : m.p ≠ []) (hhne : m.h ≠ []) (hnne : m.n ≠ [])
    (hlen_ph : m.p.length = m.h.length) (hlen_he : m.h.length = m.e.length)
    (hlen_np : m.n.length = m.p.length) (hlen_hd : m.h.length = m.dloge_dlogp.length)
    (hchp : List.Chain' (· < ·) m.p) (hchh : List.Chain' (· < ·) m.h)
    (hchn : List.Chain' (· < ·) m.n) :
    (∀ q, 0 < q → q ≤ m.p.headD 0 →
      pseudo_enthalpy_from_pressure m q = m.h.headD 0) ∧
    (∀ q, m.p.getLastD 0 < q →
      pseudo_enthalpy_from_pressure m q = m.h.getLastD 0) ∧
    (∀ q, 0 < q → q ≤ m.h.headD 0 →
      pressure_from_pseudo_enthalpy m q = m.p.headD 0) ∧
    (∀ q, m.h.getLastD 0 < q →
      pressure_from_pseudo_enthalpy m q = m.p.getLastD 0) ∧
    (∀ q, 0 < q → q ≤ m.h.headD 0 →
      energy_density_from_pseudo_enthalpy m q = m.e.headD 0) ∧
    (∀ q, m.h.getLastD 0 < q →
      energy_density_from_pseudo_enthalpy m q = m.e.getLastD 0) ∧
    (∀ q, q ≤ m.h.headD 0 →
      dloge_dlogp_from_pseudo_enthalpy m q = m.dloge_dlogp.headD 0) ∧
    (∀ q, m.h.getLastD 0 < q →
      dloge_dlogp_from_pseudo_enthalpy m q = m.dloge_dlogp.getLastD 0) ∧
    (∀ q, q ≤ m.n.headD 0 →
      pressure_from_number_density m q = m.p.headD 0) ∧
    (∀ q, m.n.getLastD 0 < q →
      pressure_from_number_density m q = m.p.getLastD 0) ∧
    (∀ q lo hi, 0 < lo → (∀ x ∈ m.h, lo ≤ x ∧ x ≤ hi) →
      lo ≤ pseudo_enthalpy_from_pressure m q ∧ pseudo_enthalpy_from_pressure m q ≤ hi) := by
  have hhne' : m.logh ≠ [] := by rw [hlogh]; simpa using hhne
  have hpne' : m.logp ≠ [] := by rw [hlogp]; simpa using hpne
  refine ⟨?_, ?_, ?_, ?_, ?_, ?_, ?_, ?_, ?_, ?_, ?_⟩
  · intro q hq hle
    rw [pseudo_enthalpy_from_pressure, hlogp, hlogh]
    exact loglog_below m.p m.h q hq hpne hhne hlen_ph hhpos hle
  · intro q hgt
    rw [pseudo_enthalpy_from_pressure, hlogp, hlogh]
    exact loglog_above m.p m.h q hchp hppos hpne hhne hlen_ph hhpos hgt
  · intro q hq hle
    rw [pressure_from_pseudo_enthalpy, hlogh, hlogp]
    exact loglog_below m.h m.p q hq hhne hpne hlen_ph.symm hppos hle
  · intro q hgt
    rw [pressure_from_pseudo_enthalpy, hlogh, hlogp]
    exact loglog_above m.h m.p q hchh hhpos hhne hpne hlen_ph.symm hppos hgt
  · intro q hq hle
    rw [energy_density_from_pseudo_enthalpy, hlogh, hloge]
    have hene : m.e ≠ [] := by
      intro hc
      rw [hc] at hlen_he
      simp only [List.length_nil] at hlen_he
      exact hhne (List.length_eq_zero.mp hlen_he)
    exact loglog_below m.h m.e q hq hhne hene hlen_he hepos hle
  · intro q hgt
    rw [energy_density_from_pseudo_enthalpy, hlogh, hloge]
    have hene : m.e ≠ [] := by
      intro hc
      rw [hc] at hlen_he
      simp only [List.length_nil] at hlen_he
      exact hhne (List.length_eq_zero.mp hlen_he)
    exact loglog_above m.h m.e q hchh hhpos hhne hene hlen_he hepos hgt
  · intro q hle
    rw [dloge_dlogp_from_pseudo_enthalpy]
    exact interp_headD m.h m.dloge_dlogp q hhne hlen_hd hle
  · intro q hgt
    rw [dloge_dlogp_from_pseudo_enthalpy]
    exact interp_getLastD m.h m.dloge_dlogp q hhne hlen_hd
      (fun z hz => lt_of_le_of_lt (mem_le_getLastD m.h hchh z hz) hgt)
  · intro q hle
    rw [pressure_from_number_density, hlogp]
    rw [interp_headD m.n (m.p.map Real.log) q hnne (by simp [hlen_np]) hle,
      headD_map _ _ hpne]
    exact Real.exp_log (hppos _ (headD_mem _ hpne))
  · intro q hgt
    rw [pressure_from_number_density, hlogp]
    rw [interp_getLastD m.n (m.p.map Real.log) q hnne (by simp [hlen_np])
      (fun z hz => lt_of_le_of_lt (mem_le_getLastD m.n hchn z hz) hgt),
      getLastD_map _ _ hpne]
    exact Real.exp_log (hppos _ (getLastD_mem _ hpne))
  · intro q lo hi hlo hbnd
    have hhi : 0 < hi := by
      obtain ⟨x, hx⟩ := List.exists_mem_of_ne_nil m.h hhne
      have := hbnd x hx
      linarith
    rw [pseudo_enthalpy_from_pressure, hlogp, hlogh]
    have hb := interp_bounds (m.p.map Real.log) (m.h.map Real.log) (Real.log q)
      (Real.log lo) (Real.log hi) (by simpa using hpne) (by simp [hlen_ph]) ?_ ?_
    · constructor
      · calc lo = Real.exp (Real.log lo) := (Real.exp_log hlo).symm
          _ ≤ _ := Real.exp_le_exp.mpr hb.1
      · calc Real.exp (interp (Real.log q) (m.p.map Real.log) (m.h.map Real.log))
            ≤ Real.exp (Real.log hi) := Real.exp_le_exp.mpr hb.2
          _ = hi := Real.exp_log hhi
    · intro y hy
      obtain ⟨x, hx, rfl⟩ := List.mem_map.mp hy
      exact Real.log_le_log hlo (hbnd x hx).1
    · intro y hy
      obtain ⟨x, hx, rfl⟩ := List.mem_map.mp hy
      exact Real.log_le_log (lt_of_lt_of_le hlo (hbnd x hx).1) (hbnd x hx).2

theorem c10_out_of_range_queries_clamp_witness :
    pseudo_enthalpy_from_pressure tableA (1 / 2) = tableA.h.headD 0 := by
  have hpos : ∀ x ∈ ([1, 2] : List ℝ), 0 < x := by
    intro x hx
    simp only [List.mem_cons, List.not_mem_nil, or_false] at hx
    rcases hx with rfl | rfl <;> norm_num
  have hch : List.Chain' (· < ·) ([1, 2] : List ℝ) :=
    List.chain'_cons.mpr ⟨by norm_num, List.chain'_singleton _⟩
  exact (c10_out_of_range_queries_clamp tableA rfl rfl rfl hpos hpos hpos
    (by simp [tableA]) (by simp [tableA]) (by simp [tableA]) rfl rfl rfl rfl
    hch hch hch).1 (1 / 2) (by norm_num) (by norm_num [tableA])

/-- C8: at any stored table knot with positive pseudo-enthalpy, composing
pseudo_enthalpy_from_pressure with pressure_from_pseudo_enthalpy returns the
knot pressure exactly (in exact real arithmetic): piecewise-linear
interpolation evaluated at a knot returns the knot value and exp inverts log.
The knot with h = 0 (the first sample, where the logarithm is singular) is
excluded by the positivity hypothesis. -/
theorem c8_pressure_pseudo_enthalpy_roundtrip (n p e : List ℝ) (i : ℕ)
    (hlen : p.length = e.length)
    (hchainp : List.Chain' (· < ·) (mkInterpolateEOS n p e).logp)
    (hchainh : List.Chain' (· < ·) (mkInterpolateEOS n p e).logh)
    (hi : i < p.length)
    (hppos : ∀ x ∈ (mkInterpolateEOS n p e).p, 0 < x)
    (hhpos : 0 < (mkInterpolateEOS n p e).h.getD i 0) :
    pressure_from_pseudo_enthalpy (mkInterpolateEOS n p e)
      (pseudo_enthalpy_from_pressure (mkInterpolateEOS n p e)
        ((mkInterpolateEOS n p e).p.getD i 0)) =
    (mkInterpolateEOS n p e).p.getD i 0 := by
  set m := mkInterpolateEOS n p e with hm
  have hplen : m.p.length = p.length := by
    rw [hm]
    simp [mkInterpolateEOS]
  have hhlen : m.h.length = p.length := by
    rw [hm]
    show (cumtrapz _ _).length = p.length
    rw [cumtrapz_length]
    simp [hlen]
  have hlogp : m.logp = m.p.map Real.log := rfl
  have hlogh : m.logh = m.h.map Real.log := rfl
  have hlogplen : m.logp.length = p.length := by rw [hlogp, List.length_map, hplen]
  have hloghlen : m.logh.length = p.length := by rw [hlogh, List.length_map, hhlen]
  have hpi_mem : m.p.getD i 0 ∈ m.p := by
    rw [List.getD_eq_getElem _ _ (by rw [hplen]; exact hi)]
    exact List.getElem_mem _
  have hpi : 0 < m.p.getD i 0 := hppos _ hpi_mem
  have step1 : pseudo_enthalpy_from_pressure m (m.p.getD i 0) = m.h.getD i 0 := by
    rw [pseudo_enthalpy_from_pressure]
    have hlq : Real.log (m.p.getD i 0) = m.logp.getD i 0 := by
      rw [hlogp]
      exact (getD_map_of_lt Real.log m.p i (by rw [hplen]; exact hi)).symm
    rw [hlq, interp_getD m.logp m.logh i hchainp (by rw [hlogplen]; exact hi)
      (by rw [hlogplen, hloghlen])]
    rw [hlogh, getD_map_of_lt Real.log m.h i (by rw [hhlen]; exact hi)]
    exact Real.exp_log hhpos
  rw [step1, pressure_from_pseudo_enthalpy]
  have hlq : Real.log (m.h.getD i 0) = m.logh.getD i 0 := by
    rw [hlogh]
    exact (getD_map_of_lt Real.log m.h i (by rw [hhlen]; exact hi)).symm
  rw [hlq, interp_getD m.logh m.logp i hchainh (by rw [hloghlen]; exact hi)
    (by rw [hlogplen, hloghlen])]
  rw [hlogp, getD_map_of_lt Real.log m.p i (by rw [hplen]; exact hi)]
  exact Real.exp_log hpi

theorem c8_pressure_pseudo_enthalpy_roundtrip_witness :
    pressure_from_pseudo_enthalpy
      (mkInterpolateEOS [1, 2]
        [1 / MeV_fm_inv3_to_geometric, Real.exp 6 / MeV_fm_inv3_to_geometric]
        [1 / MeV_fm_inv3_to_geometric, 1 / MeV_fm_inv3_to_geometric])
      (pseudo_enthalpy_from_pressure
        (mkInterpolateEOS [1, 2]
          [1 / MeV_fm_inv3_to_geometric, Real.exp 6 / MeV_fm_inv3_to_geometric]
          [1 / MeV_fm_inv3_to_geometric, 1 / MeV_fm_inv3_to_geometric])
        ((mkInterpolateEOS [1, 2]
          [1 / MeV_fm_inv3_to_geometric, Real.exp 6 / MeV_fm_inv3_to_geometric]
          [1 / MeV_fm_inv3_to_geometric, 1 / MeV_fm_inv3_to_geometric]).p.getD 1 0)) =
    (mkInterpolateEOS [1, 2]
      [1 / MeV_fm_inv3_to_geometric, Real.exp 6 / MeV_fm_inv3_to_geometric]
      [1 / MeV_fm_inv3_to_geometric, 1 / MeV_fm_inv3_to_geometric]).p.getD 1 0 := by
  have hMeV : MeV_fm_inv3_to_geometric ≠ 0 := by norm_num [MeV_fm_inv3_to_geometric]
  have hp' : (mkInterpolateEOS [1, 2]
      [1 / MeV_fm_inv3_to_geometric, Real.exp 6 / MeV_fm_inv3_to_geometric]
      [1 / MeV_fm_inv3_to_geometric, 1 / MeV_fm_inv3_to_geometric]).p = [1, Real.exp 6] := by
    simp [mkInterpolateEOS, div_mul_cancel₀, hMeV]
  have hhe : (mkInterpolateEOS [1, 2]
      [1 / MeV_fm_inv3_to_geometric, Real.exp 6 / MeV_fm_inv3_to_geometric]
      [1 / MeV_fm_inv3_to_geometric, 1 / MeV_fm_inv3_to_geometric]).h =
      [0, (1 / 2 + Real.exp 6 / (1 + Real.exp 6)) / 2 * 6] := by
    show cumtrapz _ _ = _
    simp [cumtrapz, cumtrapzAux, div_mul_cancel₀, hMeV, Real.log_exp, Real.log_one]
    norm_num
  have ht : 0 < Real.exp 6 / (1 + Real.exp 6) :=
    div_pos (Real.exp_pos 6) (by positivity)
  have hH1 : 1 < (1 / 2 + Real.exp 6 / (1 + Real.exp 6)) / 2 * 6 := by nlinarith
  apply c8_pressure_pseudo_enthalpy_roundtrip
  · simp
  · have hlp : (mkInterpolateEOS [1, 2]
        [1 / MeV_fm_inv3_to_geometric, Real.exp 6 / MeV_fm_inv3_to_geometric]
        [1 / MeV_fm_inv3_to_geometric, 1 / MeV_fm_inv3_to_geometric]).logp =
        [Real.log 1, Real.log (Real.exp 6)] := by
      rw [show (mkInterpolateEOS [1, 2]
        [1 / MeV_fm_inv3_to_geometric, Real.exp 6 / MeV_fm_inv3_to_geometric]
        [1 / MeV_fm_inv3_to_geometric, 1 / MeV_fm_inv3_to_geometric]).logp =
        ((mkInterpolateEOS [1, 2]
          [1 / MeV_fm_inv3_to_geometric, Real.exp 6 / MeV_fm_inv3_to_geometric]
          [1 / MeV_fm_inv3_to_geometric, 1 / MeV_fm_inv3_to_geometric]).p).map Real.log from rfl,
        hp']
      rfl
    rw [hlp]
    exact List.chain'_cons.mpr ⟨by rw [Real.log_one, Real.log_exp]; norm_num,
      List.chain'_singleton _⟩
  · have hlh : (mkInterpolateEOS [1, 2]
        [1 / MeV_fm_inv3_to_geometric, Real.exp 6 / MeV_fm_inv3_to_geometric]
        [1 / MeV_fm_inv3_to_geometric, 1 / MeV_fm_inv3_to_geometric]).logh =
        [Real.log 0, Real.log ((1 / 2 + Real.exp 6 / (1 + Real.exp 6)) / 2 * 6)] := by
      rw [show (mkInterpolateEOS [1, 2]
        [1 / MeV_fm_inv3_to_geometric, Real.exp 6 / MeV_fm_inv3_to_geometric]
        [1 / MeV_fm_inv3_to_geometric, 1 / MeV_fm_inv3_to_geometric]).logh =
        ((mkInterpolateEOS [1, 2]
          [1 / MeV_fm_inv3_to_geometric, Real.exp 6 / MeV_fm_inv3_to_geometric]
          [1 / MeV_fm_inv3_to_geometric, 1 / MeV_fm_inv3_to_geometric]).h).map Real.log from rfl,
        hhe]
      rfl
    rw [hlh]
    exact List.chain'_cons.mpr ⟨by rw [Real.log_zero]; exact Real.log_pos hH1,
      List.chain'_singleton _⟩
  · norm_num
  · intro x hx
    rw [hp'] at hx
    simp only [List.mem_cons, List.not_mem_nil, or_false] at hx
    rcases hx with rfl | rfl
    · norm_num
    · exact Real.exp_pos 6
  · rw [hhe]
    simp only [List.getD_cons_succ, List.getD_cons_zero]
    linarith

theorem getD_take_of_lt (l : List ℝ) (k i : ℕ) (hi : i < (l.take k).length) :
    (l.take k).getD i 0 = l.getD i 0 := by
  have hl : i < l.length := by
    simp only [List.length_take] at hi
    omega
  rw [List.getD_eq_getElem _ _ hi, List.getD_eq_getElem _ _ hl]
  exact List.getElem_take l

theorem getD_map_general {α β : Type} (f : α → β) (l : List α) (i : ℕ) (d : α) (d' : β)
    (hi : i < l.length) : (l.map f).getD i d' = f (l.getD i d) := by
  rw [List.getD_eq_getElem _ _ (by simpa using hi), List.getD_eq_getElem _ _ hi]
  simp

theorem getD_zipWith_general {α β γ : Type} (f : α → β → γ) (as : List α) (bs : List β)
    (i : ℕ) (d1 : α) (d2 : β) (d3 : γ) (ha : i < as.length) (hb : i < bs.length) :
    (List.zipWith f as bs).getD i d3 = f (as.getD i d1) (bs.getD i d2) := by
  rw [List.getD_eq_getElem _ _ (by simp [List.length_zipWith]; omega),
    List.getD_eq_getElem _ _ ha, List.getD_eq_getElem _ _ hb]
  simp

/-- C7: construct_family builds exactly ndat log-spaced central pressures from
pc_min (log-log interpolation of pressure at min_nsat·0.16 fm^-3 in geometric
units) to pc_max (the last table pressure); every returned mass is the solver
mass divided by the solar mass, every returned radius is the solver radius in
kilometers, and every returned tidal deformability is (2/3)·k2·c^(-5) with
compactness c = mass/radius in geometric units. -/
theorem c7_family_grid_and_postprocessing
    (solver : List ℝ × List ℝ × List ℝ × List ℝ → ℝ → ℝ × ℝ × ℝ)
    (ns ps hs es dl : List ℝ) (ndat : ℕ) (min_nsat : ℝ) :
    ((construct_family solver (ns, ps, hs, es, dl) ndat min_nsat).1.length = ndat) ∧
    (2 ≤ ndat →
      0 < interp_in_logspace (min_nsat * 0.16 * fm_inv3_to_geometric) ns ps →
      0 < ps.getLastD 0 →
      (construct_family solver (ns, ps, hs, es, dl) ndat min_nsat).1.headD 0 =
          Real.log (interp_in_logspace (min_nsat * 0.16 * fm_inv3_to_geometric) ns ps) ∧
        (construct_family solver (ns, ps, hs, es, dl) ndat min_nsat).1.getLastD 0 =
          Real.log (ps.getLastD 0)) ∧
    (∀ i, i < (construct_family solver (ns, ps, hs, es, dl) ndat min_nsat).2.1.length →
      (construct_family solver (ns, ps, hs, es, dl) ndat min_nsat).2.1.getD i 0 =
        (solver (ps, hs, es, dl)
          ((familyPcs (ns, ps, hs, es, dl) ndat min_nsat).getD i 0)).1
          / solar_mass_in_meter) ∧
    (∀ i, i < (construct_family solver (ns, ps, hs, es, dl) ndat min_nsat).2.2.1.length →
      (construct_family solver (ns, ps, hs, es, dl) ndat min_nsat).2.2.1.getD i 0 =
        (solver (ps, hs, es, dl)
          ((familyPcs (ns, ps, hs, es, dl) ndat min_nsat).getD i 0)).2.1 / 1000) ∧
    (∀ i, i < (construct_family solver (ns, ps, hs, es, dl) ndat min_nsat).2.2.2.length →
      (construct_family solver (ns, ps, hs, es, dl) ndat min_nsat).2.2.2.getD i 0 =
        2 / 3 * (solver (ps, hs, es, dl)
            ((familyPcs (ns, ps, hs, es, dl) ndat min_nsat).getD i 0)).2.2 *
          ((solver (ps, hs, es, dl)
              ((familyPcs (ns, ps, hs, es, dl) ndat min_nsat).getD i 0)).1 /
            (solver (ps, hs, es, dl)
              ((familyPcs (ns, ps, hs, es, dl) ndat min_nsat).getD i 0)).2.1)
            ^ (-5 : ℤ)) := by
  set pcs := familyPcs (ns, ps, hs, es, dl) ndat min_nsat with hpcs
  have hpcs_len : pcs.length = ndat := by
    rw [hpcs, familyPcs, logspace_length]
  have hout : construct_family solver (ns, ps, hs, es, dl) ndat min_nsat =
      (pcs.map Real.log,
        limit_by_MTOV
          ((pcs.map (solver (ps, hs, es, dl))).map (fun t => t.1) |>.map
            fun mv => mv / solar_mass_in_meter)
          ((pcs.map (solver (ps, hs, es, dl))).map (fun t => t.2.1) |>.map
            fun rv => rv / 1000)
          (List.zipWith (fun k c => 2 / 3 * k * c ^ (-5 : ℤ))
            ((pcs.map (solver (ps, hs, es, dl))).map fun t => t.2.2)
            (List.zipWith (fun mv rv => mv / rv)
              ((pcs.map (solver (ps, hs, es, dl))).map fun t => t.1)
              ((pcs.map (solver (ps, hs, es, dl))).map fun t => t.2.1)))) := rfl
  set results := pcs.map (solver (ps, hs, es, dl)) with hres
  have hres_len : results.length = ndat := by rw [hres, List.length_map, hpcs_len]
  have hms_len : (results.map (fun t => t.1)).length = ndat := by
    rw [List.length_map, hres_len]
  have hrs_len : (results.map (fun t => t.2.1)).length = ndat := by
    rw [List.length_map, hres_len]
  have hks_len : (results.map (fun t => t.2.2)).length = ndat := by
    rw [List.length_map, hres_len]
  refine ⟨?_, ?_, ?_, ?_, ?_⟩
  · rw [hout]
    simp only [List.length_map]
    exact hpcs_len
  · intro hndat hmin hmax
    have hne : pcs ≠ [] := by
      intro hc
      rw [hc] at hpcs_len
      simp only [List.length_nil] at hpcs_len
      omega
    constructor
    · rw [hout]
      show (pcs.map Real.log).headD 0 = _
      rw [headD_map _ _ hne, hpcs, familyPcs, logspace_headD _ _ _ (by omega), log10,
        Real.rpow_logb (by norm_num) (by norm_num) hmin]
    · rw [hout]
      show (pcs.map Real.log).getLastD 0 = _
      rw [getLastD_map _ _ hne, hpcs, familyPcs, logspace_getLastD _ _ _ hndat, log10,
        Real.rpow_logb (by norm_num) (by norm_num) hmax]
  · intro i hi
    rw [hout] at hi ⊢
    simp only [limit_by_MTOV] at hi ⊢
    have hi' : i < ((results.map fun t => t.1).map
        fun mv => mv / solar_mass_in_meter).length := by
      simp only [List.length_take] at hi
      omega
    rw [getD_take_of_lt _ _ _ hi]
    have hI : i < results.length := by
      simp only [List.length_map] at hi'
      omega
    rw [getD_map_general _ _ _ 0 0 (by simpa using hI),
      getD_map_general _ _ _ (0, 0, 0) 0 hI,
      getD_map_general _ _ _ 0 (0, 0, 0) (by rw [hpcs_len]; rw [hres_len] at hI; exact hI)]
  · intro i hi
    rw [hout] at hi ⊢
    simp only [limit_by_MTOV] at hi ⊢
    rw [getD_take_of_lt _ _ _ hi]
    have hi' : i < ((results.map fun t => t.2.1).map fun rv => rv / 1000).length := by
      simp only [List.length_take] at hi
      omega
    have hI : i < results.length := by
      simp only [List.length_map] at hi'
      omega
    rw [getD_map_general _ _ _ 0 0 (by simpa using hI),
      getD_map_general _ _ _ (0, 0, 0) 0 hI,
      getD_map_general _ _ _ 0 (0, 0, 0) (by rw [hpcs_len]; rw [hres_len] at hI; exact hI)]
  · intro i hi
    rw [hout] at hi ⊢
    simp only [limit_by_MTOV] at hi ⊢
    rw [getD_take_of_lt _ _ _ hi]
    have hi' : i < (List.zipWith (fun k c => 2 / 3 * k * c ^ (-5 : ℤ))
        (results.map fun t => t.2.2)
        (List.zipWith (fun mv rv => mv / rv)
          (results.map fun t => t.1) (results.map fun t => t.2.1))).length := by
      simp only [List.length_take] at hi
      omega
    have hI : i < results.length := by
      simp only [List.length_zipWith, List.length_map] at hi'
      omega
    rw [getD_zipWith_general _ _ _ _ 0 0 0 (by simpa using hI)
      (by simp only [List.length_zipWith, List.length_map]; omega)]
    rw [getD_map_general _ _ _ (0, 0, 0) 0 hI]
    rw [getD_zipWith_general _ _ _ _ 0 0 0 (by simpa using hI) (by simpa using hI)]
    rw [getD_map_general _ _ _ (0, 0, 0) 0 hI, getD_map_general _ _ _ (0, 0, 0) 0 hI]
    rw [getD_map_general _ _ _ 0 (0, 0, 0) (by rw [hpcs_len]; rw [hres_len] at hI; exact hI)]

theorem c7_family_grid_and_postprocessing_witness :
    (construct_family (fun _ _ => ((1 : ℝ), (1 : ℝ), (1 : ℝ)))
        (([1, 2] : List ℝ), [1, 2], [1, 2], [1, 2], [1, 1]) 2 2).1.length = 2 ∧
    (construct_family (fun _ _ => ((1 : ℝ), (1 : ℝ), (1 : ℝ)))
        (([1, 2] : List ℝ), [1, 2], [1, 2], [1, 2], [1, 1]) 2 2).1.headD 0 =
      Real.log (interp_in_logspace (2 * 0.16 * fm_inv3_to_geometric) [1, 2] [1, 2]) ∧
    (construct_family (fun _ _ => ((1 : ℝ), (1 : ℝ), (1 : ℝ)))
        (([1, 2] : List ℝ), [1, 2], [1, 2], [1, 2], [1, 1]) 2 2).1.getLastD 0 =
      Real.log (([1, 2] : List ℝ).getLastD 0) ∧
    (construct_family (fun _ _ => ((1 : ℝ), (1 : ℝ), (1 : ℝ)))
        (([1, 2] : List ℝ), [1, 2], [1, 2], [1, 2], [1, 1]) 2 2).2.1.getD 0 0 =
      1 / solar_mass_in_meter ∧
    (construct_family (fun _ _ => ((1 : ℝ), (1 : ℝ), (1 : ℝ)))
        (([1, 2] : List ℝ), [1, 2], [1, 2], [1, 2], [1, 1]) 2 2).2.2.1.getD 0 0 =
      1 / 1000 ∧
    (construct_family (fun _ _ => ((1 : ℝ), (1 : ℝ), (1 : ℝ)))
        (([1, 2] : List ℝ), [1, 2], [1, 2], [1, 2], [1, 1]) 2 2).2.2.2.getD 0 0 =
      2 / 3 * 1 * ((1 : ℝ) / 1) ^ (-5 : ℤ) := by
  have h := c7_family_grid_and_postprocessing (fun _ _ => ((1 : ℝ), (1 : ℝ), (1 : ℝ)))
    [1, 2] [1, 2] [1, 2] [1, 2] [1, 1] 2 2
  have hlen1 : 0 < (construct_family (fun _ _ => ((1 : ℝ), (1 : ℝ), (1 : ℝ)))
      (([1, 2] : List ℝ), [1, 2], [1, 2], [1, 2], [1, 1]) 2 2).2.1.length := by
    simp [construct_family, limit_by_MTOV, mtovCut, logspace, List.range_succ,
      interp_in_logspace]
  have hlen2 : 0 < (construct_family (fun _ _ => ((1 : ℝ), (1 : ℝ), (1 : ℝ)))
      (([1, 2] : List ℝ), [1, 2], [1, 2], [1, 2], [1, 1]) 2 2).2.2.1.length := by
    simp [construct_family, limit_by_MTOV, mtovCut, logspace, List.range_succ,
      interp_in_logspace]
  have hlen3 : 0 < (construct_family (fun _ _ => ((1 : ℝ), (1 : ℝ), (1 : ℝ)))
      (([1, 2] : List ℝ), [1, 2], [1, 2], [1, 2], [1, 1]) 2 2).2.2.2.length := by
    simp [construct_family, limit_by_MTOV, mtovCut, logspace, List.range_succ,
      interp_in_logspace]
  have hends := h.2.1 (by norm_num) (by exact Real.exp_pos _) (by norm_num)
  exact ⟨h.1, hends.1, hends.2, by simpa using h.2.2.1 0 hlen1,
    by simpa using h.2.2.2.1 0 hlen2, by simpa using h.2.2.2.2 0 hlen3⟩

theorem getLastD_eq_getD (l : List ℝ) (h : l ≠ []) :
    l.getLastD 0 = l.getD (l.length - 1) 0 := by
  have hlen : 0 < l.length := List.length_pos.mpr h
  rw [List.getLastD_eq_getLast?, List.getLast?_eq_getElem?, List.getD_eq_getElem _ _ (by omega)]
  simp [List.getElem?_eq_getElem (show l.length - 1 < l.length by omega)]

theorem getD_tail (l : List ℝ) (j : ℕ) : l.tail.getD j 0 = l.getD (j + 1) 0 := by
  match l with
  | [] => simp
  | a :: t => simp

/-- The last finite difference of a list is the difference of its last two
entries. -/
theorem diffL_getLastD (l : List ℝ) (h : 2 ≤ l.length) :
    (diffL l).getLastD 0 = l.getD (l.length - 1) 0 - l.getD (l.length - 2) 0 := by
  have hdlen : (diffL l).length = l.length - 1 := diffL_length l
  have hne : diffL l ≠ [] := by
    intro hc
    rw [hc] at hdlen
    simp only [List.length_nil] at hdlen
    omega
  rw [getLastD_eq_getD _ hne, hdlen, diffL,
    getD_zipWith_general _ _ _ _ 0 0 0 (by omega) (by rw [List.length_tail]; omega),
    getD_tail]
  have h1 : l.length - 1 - 1 + 1 = l.length - 1 := by omega
  have h2 : l.length - 1 - 1 = l.length - 2 := by omega
  rw [h1, h2]

/-- C4: at construction MetaModel_with_CSE_EOS_model computes
mu_break = (p_break + e_break)/nbreak and cs2_break as the last
finite-difference slope of the meta-model table, and extends the EOS on a
log-spaced grid from nbreak to nmax whose stored entries equal the spec's
cumulative-trapezoid formulas: mu(n) = mu_break·exp(∫cs2/n' dn'),
p(n) = p_break + ∫cs2·mu dn', e(n) = e_break + ∫mu dn' (stored in geometric
units, appended after the meta-model segment). -/
theorem c4_cse_break_point_and_integration (a : MetaModelArgs) (nbreak nmax : ℝ)
    (ngrids cs2grids : List ℝ) (ndat_CSE : ℕ) :
    (buildCSE a nbreak ngrids cs2grids nmax ndat_CSE).mu_break =
      ((buildCSE a nbreak ngrids cs2grids nmax ndat_CSE).p_break +
        (buildCSE a nbreak ngrids cs2grids nmax ndat_CSE).e_break) / nbreak ∧
    (2 ≤ (buildCSE a nbreak ngrids cs2grids nmax ndat_CSE).metamodel.eos.p.length →
      2 ≤ (buildCSE a nbreak ngrids cs2grids nmax ndat_CSE).metamodel.eos.e.length →
      (buildCSE a nbreak ngrids cs2grids nmax ndat_CSE).cs2_break =
        ((buildCSE a nbreak ngrids cs2grids nmax ndat_CSE).metamodel.eos.p.getD
            ((buildCSE a nbreak ngrids cs2grids nmax ndat_CSE).metamodel.eos.p.length - 1) 0 -
          (buildCSE a nbreak ngrids cs2grids nmax ndat_CSE).metamodel.eos.p.getD
            ((buildCSE a nbreak ngrids cs2grids nmax ndat_CSE).metamodel.eos.p.length - 2) 0) /
        ((buildCSE a nbreak ngrids cs2grids nmax ndat_CSE).metamodel.eos.e.getD
            ((buildCSE a nbreak ngrids cs2grids nmax ndat_CSE).metamodel.eos.e.length - 1) 0 -
          (buildCSE a nbreak ngrids cs2grids nmax ndat_CSE).metamodel.eos.e.getD
            ((buildCSE a nbreak ngrids cs2grids nmax ndat_CSE).metamodel.eos.e.length - 2) 0)) ∧
    (1 ≤ ndat_CSE → 0 < nbreak →
      (logspace (log10 nbreak) (log10 nmax) ndat_CSE).headD 0 = nbreak) ∧
    (2 ≤ ndat_CSE → 0 < nmax →
      (logspace (log10 nbreak) (log10 nmax) ndat_CSE).getLastD 0 = nmax) ∧
    (∀ k, k < ndat_CSE →
      (buildCSE a nbreak ngrids cs2grids nmax ndat_CSE).eos.n.getD
          ((buildCSE a nbreak ngrids cs2grids nmax ndat_CSE).metamodel.eos.n.length + k) 0 =
        (logspace (log10 nbreak) (log10 nmax) ndat_CSE).getD k 0 * fm_inv3_to_geometric) ∧
    (∀ k, k < ndat_CSE →
      (buildCSE a nbreak ngrids cs2grids nmax ndat_CSE).eos.p.getD
          ((buildCSE a nbreak ngrids cs2grids nmax ndat_CSE).metamodel.eos.p.length + k) 0 =
        specCSEp (buildCSE a nbreak ngrids cs2grids nmax ndat_CSE).p_break
          (buildCSE a nbreak ngrids cs2grids nmax ndat_CSE).mu_break
          ((buildCSE a nbreak ngrids cs2grids nmax ndat_CSE).cs2_fn)
          (logspace (log10 nbreak) (log10 nmax) ndat_CSE) k * MeV_fm_inv3_to_geometric) ∧
    (∀ k, k < ndat_CSE →
      (buildCSE a nbreak ngrids cs2grids nmax ndat_CSE).eos.e.getD
          ((buildCSE a nbreak ngrids cs2grids nmax ndat_CSE).metamodel.eos.e.length + k) 0 =
        specCSEe (buildCSE a nbreak ngrids cs2grids nmax ndat_CSE).e_break
          (buildCSE a nbreak ngrids cs2grids nmax ndat_CSE).mu_break
          ((buildCSE a nbreak ngrids cs2grids nmax ndat_CSE).cs2_fn)
          (logspace (log10 nbreak) (log10 nmax) ndat_CSE) k * MeV_fm_inv3_to_geometric) := by
  set c := buildCSE a nbreak ngrids cs2grids nmax ndat_CSE with hcdef
  set mm := mkMetaModel { a with nmax := nbreak } with hmmdef
  set grid := logspace (log10 nbreak) (log10 nmax) ndat_CSE with hgriddef
  have hgridlen : grid.length = ndat_CSE := logspace_length _ _ _
  have hmm_eq : c.metamodel = mm := rfl
  have hys1 : List.zipWith (fun cv nv => cv / nv) (grid.map c.cs2_fn) grid
      = grid.map (fun x => c.cs2_fn x / x) := by
    rw [List.zipWith_map_left, List.zipWith_same]
  have hmusgetD : ∀ j, j < ndat_CSE →
      ((cumtrapz (grid.map (fun x => c.cs2_fn x / x)) grid).map
        (fun t => c.mu_break * Real.exp t)).getD j 0
        = specCSEmu c.mu_break c.cs2_fn grid j := by
    intro j hj
    rw [getD_map_general _ _ _ 0 0
        (by rw [cumtrapz_length, List.length_map, hgridlen]; omega),
      cumtrapz_getD _ _ _ (by rw [List.length_map, hgridlen]; omega)
        (by rw [hgridlen]; omega),
      specCSEmu]
  have hmus_eq : (cumtrapz (grid.map (fun x => c.cs2_fn x / x)) grid).map
        (fun t => c.mu_break * Real.exp t)
      = (List.range grid.length).map (fun j => specCSEmu c.mu_break c.cs2_fn grid j) := by
    apply List.ext_getElem
    · rw [List.length_map, cumtrapz_length, List.length_map, List.length_map,
        List.length_range]
      omega
    · intro i h1 h2
      have hi : i < ndat_CSE := by
        rw [List.length_map, List.length_range, hgridlen] at h2
        exact h2
      rw [← List.getD_eq_getElem _ 0 h1, ← List.getD_eq_getElem _ 0 h2,
        hmusgetD i hi, getD_range_map_of_lt _ _ _ (by rw [hgridlen]; omega)]
  refine ⟨rfl, ?_, ?_, ?_, ?_, ?_, ?_⟩
  · intro hp2 he2
    rw [hmm_eq] at hp2 he2 ⊢
    have hbreak : c.cs2_break =
        (diffL mm.eos.p).getLastD 0 / (diffL mm.eos.e).getLastD 0 := rfl
    rw [hbreak, diffL_getLastD _ hp2, diffL_getLastD _ he2]
  · intro h1 hnb
    rw [hgriddef, logspace_headD _ _ _ h1, log10,
      Real.rpow_logb (by norm_num) (by norm_num) hnb]
  · intro h2 hnm
    rw [hgriddef, logspace_getLastD _ _ _ h2, log10,
      Real.rpow_logb (by norm_num) (by norm_num) hnm]
  · intro k hk
    have hceosn : c.eos.n = (mm.eos.n.map (fun v => v / fm_inv3_to_geometric) ++ grid).map
        (· * fm_inv3_to_geometric) := rfl
    rw [hmm_eq, hceosn,
      getD_map_general _ _ _ 0 0
        (by rw [List.length_append, List.length_map]; omega),
      List.getD_append_right _ _ _ _ (by rw [List.length_map]; omega),
      List.length_map, Nat.add_sub_cancel_left]
  · intro k hk
    have hceosp : c.eos.p = (mm.eos.p.map (fun v => v / MeV_fm_inv3_to_geometric) ++
        (cumtrapz (List.zipWith (fun cv mu => cv * mu) (grid.map c.cs2_fn)
          ((cumtrapz (List.zipWith (fun cv nv => cv / nv) (grid.map c.cs2_fn) grid) grid).map
            (fun t => c.mu_break * Real.exp t))) grid).map
          (fun t => c.p_break + t)).map (· * MeV_fm_inv3_to_geometric) := rfl
    rw [hys1, hmus_eq] at hceosp
    have hzlen : (List.zipWith (fun cv mu => cv * mu) (grid.map c.cs2_fn)
        ((List.range grid.length).map
          (fun j => specCSEmu c.mu_break c.cs2_fn grid j))).length = ndat_CSE := by
      rw [List.length_zipWith, List.length_map, List.length_map, List.length_range, hgridlen]
      omega
    rw [hmm_eq, hceosp,
      getD_map_general _ _ _ 0 0
        (by rw [List.length_append, List.length_map, List.length_map, cumtrapz_length,
          hzlen, hgridlen]; omega),
      List.getD_append_right _ _ _ _ (by rw [List.length_map]; omega),
      List.length_map, Nat.add_sub_cancel_left,
      getD_map_general _ _ _ 0 0 (by rw [cumtrapz_length, hzlen, hgridlen]; omega),
      cumtrapz_getD _ _ _ (by rw [hzlen]; omega) (by rw [hgridlen]; omega),
      specCSEp]
  · intro k hk
    have hceose : c.eos.e = (mm.eos.e.map (fun v => v / MeV_fm_inv3_to_geometric) ++
        (cumtrapz ((cumtrapz (List.zipWith (fun cv nv => cv / nv)
            (grid.map c.cs2_fn) grid) grid).map
          (fun t => c.mu_break * Real.exp t)) grid).map
          (fun t => c.e_break + t)).map (· * MeV_fm_inv3_to_geometric) := rfl
    rw [hys1, hmus_eq] at hceose
    have hmulen : ((List.range grid.length).map
        (fun j => specCSEmu c.mu_break c.cs2_fn grid j)).length = ndat_CSE := by
      rw [List.length_map, List.length_range, hgridlen]
    rw [hmm_eq, hceose,
      getD_map_general _ _ _ 0 0
        (by rw [List.length_append, List.length_map, List.length_map, cumtrapz_length,
          hmulen, hgridlen]; omega),
      List.getD_append_right _ _ _ _ (by rw [List.length_map]; omega),
      List.length_map, Nat.add_sub_cancel_left,
      getD_map_general _ _ _ 0 0 (by rw [cumtrapz_length, hmulen, hgridlen]; omega),
      cumtrapz_getD _ _ _ (by rw [hmulen]; omega) (by rw [hgridlen]; omega),
      specCSEe]

theorem c4_cse_break_point_and_integration_witness :
    (logspace (log10 0.32) (log10 0.64) 2).headD 0 = 0.32 ∧
    (logspace (log10 0.32) (log10 0.64) 2).getLastD 0 = 0.64 ∧
    (buildCSE argsA 0.32 [0.5] [0.5] 0.64 2).eos.p.getD
        ((buildCSE argsA 0.32 [0.5] [0.5] 0.64 2).metamodel.eos.p.length + 0) 0 =
      specCSEp (buildCSE argsA 0.32 [0.5] [0.5] 0.64 2).p_break
        (buildCSE argsA 0.32 [0.5] [0.5] 0.64 2).mu_break
        ((buildCSE argsA 0.32 [0.5] [0.5] 0.64 2).cs2_fn)
        (logspace (log10 0.32) (log10 0.64) 2) 0 * MeV_fm_inv3_to_geometric ∧
    (buildCSE argsA 0.32 [0.5] [0.5] 0.64 2).cs2_break =
      ((buildCSE argsA 0.32 [0.5] [0.5] 0.64 2).metamodel.eos.p.getD
          ((buildCSE argsA 0.32 [0.5] [0.5] 0.64 2).metamodel.eos.p.length - 1) 0 -
        (buildCSE argsA 0.32 [0.5] [0.5] 0.64 2).metamodel.eos.p.getD
          ((buildCSE argsA 0.32 [0.5] [0.5] 0.64 2).metamodel.eos.p.length - 2) 0) /
      ((buildCSE argsA 0.32 [0.5] [0.5] 0.64 2).metamodel.eos.e.getD
          ((buildCSE argsA 0.32 [0.5] [0.5] 0.64 2).metamodel.eos.e.length - 1) 0 -
        (buildCSE argsA 0.32 [0.5] [0.5] 0.64 2).metamodel.eos.e.getD
          ((buildCSE argsA 0.32 [0.5] [0.5] 0.64 2).metamodel.eos.e.length - 2) 0) := by
  have h := c4_cse_break_point_and_integration argsA 0.32 0.64 [0.5] [0.5] 2
  have hcrp : crust_ps { argsA with nmax := 0.32 } = [1, 3] := by
    rw [crust_ps, crustTriples]
    norm_num [argsA, List.filter_cons]
  have hcre : crust_es { argsA with nmax := 0.32 } = [10, 12] := by
    rw [crust_es, crustTriples]
    norm_num [argsA, List.filter_cons]
  have hlenp : 2 ≤ (mkMetaModel { argsA with nmax := 0.32 }).eos.p.length := by
    have h1 : (metaModelTable { argsA with nmax := 0.32 }).2.1 =
        crust_ps { argsA with nmax := 0.32 } ++
          (mmTriples { argsA with nmax := 0.32 }).map (fun t => t.2.1) := rfl
    have h2 : (mkMetaModel { argsA with nmax := 0.32 }).eos.p =
        ((metaModelTable { argsA with nmax := 0.32 }).2.1).map
          (· * MeV_fm_inv3_to_geometric) := rfl
    rw [h2, List.length_map, h1, List.length_append, hcrp]
    simp
  have hlene : 2 ≤ (mkMetaModel { argsA with nmax := 0.32 }).eos.e.length := by
    have h1 : (metaModelTable { argsA with nmax := 0.32 }).2.2 =
        crust_es { argsA with nmax := 0.32 } ++
          (mmTriples { argsA with nmax := 0.32 }).map (fun t => t.2.2) := rfl
    have h2 : (mkMetaModel { argsA with nmax := 0.32 }).eos.e =
        ((metaModelTable { argsA with nmax := 0.32 }).2.2).map
          (· * MeV_fm_inv3_to_geometric) := rfl
    rw [h2, List.length_map, h1, List.length_append, hcre]
    simp
  exact ⟨h.2.2.1 (by norm_num) (by norm_num), h.2.2.2.1 (by norm_num) (by norm_num),
    h.2.2.2.2.2.1 0 (by norm_num), h.2.1 hlenp hlene⟩

/-- C3 (amended): the density column of a MetaModel_EOS_model table is strictly
increasing whenever the supplied crust densities are strictly increasing, no
spline bridge is used, and the adjusted metamodel start lies strictly between 0
and nmax; the MetaModel_with_CSE_EOS_model table is NOT strictly increasing in
general, because the break density ends the meta-model segment and also starts
the CSE segment (see the counterexample). -/
theorem c3_metamodel_density_strictly_increasing (a : MetaModelArgs)
    (hsp : a.use_spline = false)
    (hcr : List.Chain' (· < ·) a.crust_n)
    (hpos : 0 < adjustedNmin a)
    (hlt : adjustedNmin a < a.nmax) :
    List.Chain' (· < ·) (mkMetaModel a).eos.n := by
  have h1 : (mkMetaModel a).eos.n = ((metaModelTable a).1).map (· * fm_inv3_to_geometric) :=
    rfl
  have h2 : (metaModelTable a).1 = crust_ns a ++ (mmTriples a).map (fun t => t.1) := by
    rw [metaModelTable]
    simp only [hsp, Bool.false_eq_true, if_false]
  have hf : (0 : ℝ) < fm_inv3_to_geometric := by norm_num [fm_inv3_to_geometric]
  rw [h1, h2, List.chain'_map]
  have hcore : List.Chain' (· < ·) (crust_ns a ++ (mmTriples a).map (fun t => t.1)) := by
    have hsub : List.Sublist (crust_ns a) a.crust_n := by
      rw [crust_ns, crustTriples]
      by_cases hec : a.use_empty_crust = true
      · simp [hec]
      · rw [if_neg hec]
        have hstep : (((a.crust_n.zip (a.crust_p.zip a.crust_e)).map
            (fun t => (t.1, t.2.1, t.2.2))).filter
            (fun t => t.1 ≤ a.max_n_crust)).map (fun t => t.1) |>.Sublist
            (((a.crust_n.zip (a.crust_p.zip a.crust_e)).map
              (fun t => (t.1, t.2.1, t.2.2))).map (fun t => t.1)) :=
          (List.filter_sublist _).map _
        have heq : (((a.crust_n.zip (a.crust_p.zip a.crust_e)).map
            (fun t => (t.1, t.2.1, t.2.2))).map (fun t => t.1)) =
            (a.crust_n.zip (a.crust_p.zip a.crust_e)).map Prod.fst := by
          rw [List.map_map]
          rfl
        exact hstep.trans (heq ▸ map_fst_zip_sublist a.crust_n (a.crust_p.zip a.crust_e))
    have hsub2 : List.Sublist ((mmTriples a).map (fun t => t.1))
        (logspace (log10 (adjustedNmin a)) (log10 a.nmax) a.ndat) := by
      rw [mmTriples]
      have hstep : (((logspace (log10 (adjustedNmin a)) (log10 a.nmax) a.ndat).map
          (fun n => (n, pressure_scalar (coreModel a) n,
            energy_density_scalar (coreModel a) n))).filter
          (fun t => (crust_ps a).getLastD 0 < t.2.1 ∧ (crust_es a).getLastD 0 < t.2.2)).map
          (fun t => t.1) |>.Sublist
          (((logspace (log10 (adjustedNmin a)) (log10 a.nmax) a.ndat).map
            (fun n => (n, pressure_scalar (coreModel a) n,
              energy_density_scalar (coreModel a) n))).map (fun t => t.1)) :=
        (List.filter_sublist _).map _
      have heq : ((logspace (log10 (adjustedNmin a)) (log10 a.nmax) a.ndat).map
          (fun n => (n, pressure_scalar (coreModel a) n,
            energy_density_scalar (coreModel a) n))).map (fun t => t.1) =
          logspace (log10 (adjustedNmin a)) (log10 a.nmax) a.ndat := by
        rw [List.map_map]
        exact List.map_id' _
      rw [heq] at hstep
      exact hstep
    have hchlog : List.Chain' (· < ·)
        (logspace (log10 (adjustedNmin a)) (log10 a.nmax) a.ndat) :=
      logspace_chain _ _ _ (Real.logb_lt_logb (by norm_num) hpos hlt)
    rw [List.chain'_append]
    refine ⟨hcr.sublist hsub, hchlog.sublist hsub2, ?_⟩
    intro x hx y hy
    have hxval : (crust_ns a).getLastD 0 = x := by
      rw [List.getLastD_eq_getLast?, Option.mem_def.mp hx]
      rfl
    have hy2 : y ∈ logspace (log10 (adjustedNmin a)) (log10 a.nmax) a.ndat :=
      hsub2.subset (List.mem_of_mem_head? hy)
    have hyge : (10 : ℝ) ^ log10 (adjustedNmin a) ≤ y :=
      logspace_mem_ge _ _ _
        (le_of_lt (Real.logb_lt_logb (by norm_num) hpos hlt)) y hy2
    rw [log10, Real.rpow_logb (by norm_num) (by norm_num) hpos] at hyge
    have hxlt : x < adjustedNmin a := by
      have := le_max_right a.nmin ((crust_ns a).getLastD 0 + 1 / 1000)
      rw [hxval] at this
      rw [adjustedNmin] at *
      calc x < x + 1 / 1000 := by norm_num
        _ ≤ max a.nmin (x + 1 / 1000) := by
            rw [← hxval]
            rw [hxval]
            exact le_max_right _ _
        _ = max a.nmin ((crust_ns a).getLastD 0 + 1 / 1000) := by rw [hxval]
    exact lt_of_lt_of_le hxlt hyge
  exact hcore.imp fun x y h => mul_lt_mul_of_pos_right h hf

theorem adjustedNmin_argsA_eval : adjustedNmin argsA = 0.1 := by
  rw [adjustedNmin, crust_ns_argsA_eval]
  have h1 : ([(0.01 : ℝ), 0.02]).getLastD 0 = 0.02 := by
    rw [List.getLastD_eq_getLast?]
    norm_num
  rw [h1]
  have h2 : argsA.nmin = 0.1 := rfl
  rw [h2]
  rw [max_eq_left (by norm_num)]

theorem c3_metamodel_density_strictly_increasing_witness :
    List.Chain' (· < ·) (mkMetaModel argsA).eos.n := by
  apply c3_metamodel_density_strictly_increasing argsA rfl
  · show List.Chain' (· < ·) [0.01, 0.02]
    exact List.chain'_cons.mpr ⟨by norm_num, List.chain'_singleton _⟩
  · rw [adjustedNmin_argsA_eval]
    norm_num
  · rw [adjustedNmin_argsA_eval]
    show (0.1 : ℝ) < 0.32
    norm_num

theorem crust_ps_argsA_eval : crust_ps argsA = [1, 3] := by
  rw [crust_ps, crustTriples]
  norm_num [argsA, List.filter_cons]

theorem crust_es_argsA_eval : crust_es argsA = [10, 12] := by
  rw [crust_es, crustTriples]
  norm_num [argsA, List.filter_cons]

theorem epp_argsA_eval :
    energy_per_particle_scalar (coreModel argsA) =
      fun n => 115 * ((n - 0.16) / (3 * 0.16)) ^ 2 - 16 + 32 * (1 - 2 * 0.02) ^ 2 +
        (0.02 * m_p + (1 - 0.02) * m_n) := by
  funext n
  have hcs : (coreModel argsA).coefficient_sat = [-16, 0, 115] := by
    show normalizeCoeffs ([(-16 : ℝ), 230].take 1 ++ [0] ++ [(-16 : ℝ), 230].drop 1) = _
    rw [normalizeCoeffs]
    norm_num [List.range_succ]
  have hcm : (coreModel argsA).coefficient_sym = [32] := by
    show normalizeCoeffs [(32 : ℝ)] = _
    rw [normalizeCoeffs]
    norm_num [List.range_succ]
  have hns : (coreModel argsA).nsat = 0.16 := rfl
  have hfix : (coreModel argsA).fix_proton_fraction = true := rfl
  have hval : (coreModel argsA).fix_proton_fraction_val = 0.02 := rfl
  simp only [energy_per_particle_scalar, proton_fraction_scalar, MetaModel.esat,
    MetaModel.esym, hcs, hcm, hns, hfix, hval, if_true]
  simp [polyval]
  ring

theorem deriv_epp_argsA (n : ℝ) :
    deriv (energy_per_particle_scalar (coreModel argsA)) n =
      115 * (2 * ((n - 0.16) / (3 * 0.16))) * (1 / (3 * 0.16)) := by
  rw [epp_argsA_eval]
  have h1 : HasDerivAt (fun x : ℝ => (x - 0.16) / (3 * 0.16)) (1 / (3 * 0.16)) n :=
    ((hasDerivAt_id n).sub_const 0.16).div_const (3 * 0.16)
  have h2 := h1.pow 2
  have h3 := h2.const_mul (115 : ℝ)
  have h4 := h3.sub_const 16
  have h5 := h4.add_const (32 * (1 - 2 * 0.02) ^ 2)
  have h6 := h5.add_const (0.02 * m_p + (1 - 0.02) * m_n)
  rw [h6.deriv]
  norm_num
  ring

theorem pressure_argsA_01 : pressure_scalar (coreModel argsA) 0.1 < 3 := by
  rw [pressure_scalar, deriv_epp_argsA]
  norm_num

theorem pressure_argsA_032 : 3 < pressure_scalar (coreModel argsA) 0.32 := by
  rw [pressure_scalar, deriv_epp_argsA]
  norm_num

theorem energy_argsA_032 : 12 < energy_density_scalar (coreModel argsA) 0.32 := by
  rw [energy_density_scalar, epp_argsA_eval]
  norm_num [m_n, m_p]

/-- C3 (counterexample): the density column of the MetaModel_with_CSE table
built from the concrete two-point crust and coefficients of argsA is not
strictly increasing: the break density 0.32 ends the meta-model segment and
also starts the CSE segment, so it appears twice in a row. -/
theorem c3_counterexample :
    ¬ List.Chain' (· < ·) (buildCSE argsA 0.32 [0.5] [0.5] 0.64 2).eos.n := by
  have hadj32 : adjustedNmin { argsA with nmax := (0.32 : ℝ) } = adjustedNmin argsA := rfl
  have hcore32 : coreModel { argsA with nmax := (0.32 : ℝ) } = coreModel argsA := rfl
  have hlastp : (crust_ps { argsA with nmax := (0.32 : ℝ) }).getLastD 0 = 3 := by
    have h : crust_ps { argsA with nmax := (0.32 : ℝ) } = crust_ps argsA := rfl
    rw [h, crust_ps_argsA_eval, List.getLastD_eq_getLast?]
    norm_num
  have hlaste : (crust_es { argsA with nmax := (0.32 : ℝ) }).getLastD 0 = 12 := by
    have h : crust_es { argsA with nmax := (0.32 : ℝ) } = crust_es argsA := rfl
    rw [h, crust_es_argsA_eval, List.getLastD_eq_getLast?]
    norm_num
  have hmmt : (mmTriples { argsA with nmax := (0.32 : ℝ) }).map (fun t => t.1) = [0.32] := by
    rw [mmTriples]
    have hgrid : logspace (log10 (adjustedNmin { argsA with nmax := (0.32 : ℝ) }))
        (log10 ({ argsA with nmax := (0.32 : ℝ) } : MetaModelArgs).nmax)
        ({ argsA with nmax := (0.32 : ℝ) } : MetaModelArgs).ndat = [0.1, 0.32] := by
      have h1 : adjustedNmin { argsA with nmax := (0.32 : ℝ) } = 0.1 := by
        rw [hadj32, adjustedNmin_argsA_eval]
      have h2 : ({ argsA with nmax := (0.32 : ℝ) } : MetaModelArgs).nmax = 0.32 := rfl
      have h3 : ({ argsA with nmax := (0.32 : ℝ) } : MetaModelArgs).ndat = 2 := rfl
      rw [h1, h2, h3]
      exact logspace_two 0.1 0.32 (by norm_num) (by norm_num)
    rw [hgrid, hcore32, hlastp, hlaste]
    rw [List.map_cons, List.map_cons, List.map_nil, List.filter_cons, List.filter_cons,
      List.filter_nil]
    rw [if_neg ?hneg, if_pos ?hpos]
    case hneg =>
      simp only [decide_eq_true_eq]
      intro hcontra
      have := hcontra.1
      have hlt := pressure_argsA_01
      norm_num at this
      linarith
    case hpos =>
      simp only [decide_eq_true_eq]
      exact ⟨pressure_argsA_032, energy_argsA_032⟩
    simp
  have hcrn32 : crust_ns { argsA with nmax := (0.32 : ℝ) } = [0.01, 0.02] := by
    have h : crust_ns { argsA with nmax := (0.32 : ℝ) } = crust_ns argsA := rfl
    rw [h, crust_ns_argsA_eval]
  have hmmn : (mkMetaModel { argsA with nmax := (0.32 : ℝ) }).eos.n =
      [0.01 * fm_inv3_to_geometric, 0.02 * fm_inv3_to_geometric,
        0.32 * fm_inv3_to_geometric] := by
    have htab : (metaModelTable { argsA with nmax := (0.32 : ℝ) }).1 =
        crust_ns { argsA with nmax := (0.32 : ℝ) } ++
          (mmTriples { argsA with nmax := (0.32 : ℝ) }).map (fun t => t.1) := rfl
    have heos : (mkMetaModel { argsA with nmax := (0.32 : ℝ) }).eos.n =
        ((metaModelTable { argsA with nmax := (0.32 : ℝ) }).1).map
          (· * fm_inv3_to_geometric) := rfl
    rw [heos, htab, hcrn32, hmmt]
    rfl
  have hgrid2 : logspace (log10 0.32) (log10 0.64) 2 = [0.32, 0.64] :=
    logspace_two 0.32 0.64 (by norm_num) (by norm_num)
  have hfull : (buildCSE argsA 0.32 [0.5] [0.5] 0.64 2).eos.n =
      ([0.01 * fm_inv3_to_geometric, 0.02 * fm_inv3_to_geometric,
          0.32 * fm_inv3_to_geometric].map (fun v => v / fm_inv3_to_geometric) ++
        [0.32, 0.64]).map (· * fm_inv3_to_geometric) := by
    have hc : (buildCSE argsA 0.32 [0.5] [0.5] 0.64 2).eos.n =
        ((mkMetaModel { argsA with nmax := (0.32 : ℝ) }).eos.n.map
          (fun v => v / fm_inv3_to_geometric) ++
          logspace (log10 0.32) (log10 0.64) 2).map (· * fm_inv3_to_geometric) := rfl
    rw [hc, hmmn, hgrid2]
  have hf : (fm_inv3_to_geometric : ℝ) ≠ 0 := by norm_num [fm_inv3_to_geometric]
  rw [hfull]
  simp only [List.map_cons, List.map_nil, List.cons_append, List.nil_append,
    mul_div_cancel_right₀ _ hf]
  intro h
  simp only [List.chain'_cons] at h
  exact absurd h.2.2.1 (lt_irrefl _)
